import Mathlib

/-!
# picsil-Nano: the AT-command reply framer and its clients

A shallow embedding of `src/picsil-Nano.cpp` (class `NanoCellular`).

* Bytes (`char`) are `Char`; the reply buffer `char _buffer[255]` is a `List Char`
  whose length is its capacity.
* The serial port is a queue of bytes that can be read now (`rx`), a schedule of
  the bytes that arrive during each following millisecond (`incoming`), and the
  bytes written so far (`tx`).
* Undefined behaviour of the C++ source (a store outside `_buffer`, a null
  pointer handed to the C library) is made explicit as a `Fault`.
-/

namespace Nano

/-! ## Bytes and C strings -/

/-- The string terminator `'\0'`. -/
def NUL : Char := Char.ofNat 0

/-- Carriage return `'\r'`. -/
def CR : Char := Char.ofNat 13

/-- Line feed `'\n'`. -/
def LF : Char := Char.ofNat 10

/-- Undefined behaviour of the source, made explicit. -/
inductive Fault where
  /-- An access `a[i]` with `i` outside the array `a`. -/
  | outOfBounds
  /-- A null pointer that is dereferenced or used in pointer arithmetic. -/
  | nullPointer
  /-- A loop that never ends. -/
  | hang
  deriving DecidableEq, Repr

deriving instance DecidableEq for Except

/-- The store `buf[i] = c` into a fixed-size array. -/
def poke (buf : List Char) (i : Nat) (c : Char) : Except Fault (List Char) :=
  if i < buf.length then .ok (buf.set i c) else .error Fault.outOfBounds

/-- The C string that starts at offset `off` of `buf`: the bytes up to the first
`'\0'`. The scan is confined to the array: this is what the C library reads
when the array holds a terminator from `off` on. On an array without one the
C functions read on into whatever follows it in memory (for `_buffer`, the
member `_readBuffer`), which the model does not follow; statements about
arbitrary buffers therefore assume the terminator. -/
def cstrAt (buf : List Char) (off : Nat) : List Char :=
  (buf.drop off).takeWhile (fun c => c != NUL)

/-- The C string held by `buf`. -/
def cstr (buf : List Char) : List Char := cstrAt buf 0

/-- The byte `buf[i]`; outside the array the model reads `'\0'`. -/
def charAt (buf : List Char) (i : Nat) : Char := buf.getD i NUL

/-- Offset of the first occurrence of `needle` in `hay`, if there is one. -/
def findSub (needle : List Char) : List Char → Option Nat
  | [] => if needle.isPrefixOf [] then some 0 else none
  | c :: rest =>
    if needle.isPrefixOf (c :: rest) then some 0
    else (findSub needle rest).map (fun k => k + 1)

/-- The C library `strstr(buf + off, needle)`: the offset in `buf` of the first
occurrence of `needle` in the C string at `off`, `none` for a null result. A
result `none` stands for the null pointer of the code only when the array holds
a terminator from `off` on (see `cstrAt`). -/
def strstr (buf : List Char) (off : Nat) (needle : List Char) : Option Nat :=
  (findSub needle (cstrAt buf off)).map (fun k => off + k)

/-- What a call of `strtok` leaves behind. -/
structure Tok where
  /-- The returned pointer as an offset into the buffer; `none` is `NULL`. -/
  token : Option Nat
  /-- The buffer after the call (`strtok` writes a terminator after the token). -/
  buf : List Char
  /-- The position `strtok` keeps for the next call with a null first argument. -/
  save : Nat
  deriving DecidableEq, Repr

/-- The C library `strtok`, scanning `buf` from offset `start` with the delimiter
set `delim`: `strtok(buf, delim)` is `strtok buf 0 delim` and a later
`strtok(nullptr, delim)` starts at the saved position. -/
def strtok (buf : List Char) (start : Nat) (delim : List Char) : Tok :=
  let skipped := ((buf.drop start).takeWhile (fun c => c != NUL && delim.contains c)).length
  let tokStart := start + skipped
  if charAt buf tokStart = NUL then ⟨none, buf, tokStart⟩
  else
    let len := ((buf.drop tokStart).takeWhile (fun c => c != NUL && !delim.contains c)).length
    let tokEnd := tokStart + len
    if charAt buf tokEnd = NUL then ⟨some tokStart, buf, tokEnd⟩
    else ⟨some tokStart, buf.set tokEnd NUL, tokEnd + 1⟩

/-- The C library `isspace` in the "C" locale. -/
def isspace (c : Char) : Bool := c.toNat = 32 || (9 ≤ c.toNat && c.toNat ≤ 13)

/-- The C library `isdigit`. -/
def isdigit (c : Char) : Bool := 48 ≤ c.toNat && c.toNat ≤ 57

/-- Value of a run of decimal digits. -/
def digitsValue (ds : List Char) : Nat :=
  ds.foldl (fun acc d => 10 * acc + (d.toNat - 48)) 0

/-- Saturation of `strtol` to the range of a 32-bit `long`. -/
def clampLong (x : Int) : Int :=
  if x > 2147483647 then 2147483647 else if x < -2147483648 then -2147483648 else x

/-- The number `strtol(str, &ptr, 10)` reads from the C string `str`: optional
white space, an optional sign, then decimal digits. -/
def strtolStr (str : List Char) : Int :=
  let body := str.dropWhile isspace
  match body with
  | '-' :: rest => clampLong (-(digitsValue (rest.takeWhile isdigit) : Int))
  | '+' :: rest => clampLong (digitsValue (rest.takeWhile isdigit))
  | _ => clampLong (digitsValue (body.takeWhile isdigit))

/-- The C library `strtol(p, &ptr, 10)` on a pointer into `buf`. -/
def strtol (buf : List Char) (p : Option Nat) : Except Fault Int :=
  match p with
  | none => .error Fault.nullPointer
  | some off => .ok (strtolStr (cstrAt buf off))

/-- The C library `atoi(p)` on a pointer into `buf`. -/
def atoi (buf : List Char) (p : Option Nat) : Except Fault Int := strtol buf p

/-- Conversion of an integer to `int8_t`. -/
def toInt8 (x : Int) : Int := (x + 128) % 256 - 128

/-- Conversion of an integer to `uint8_t`. -/
def castU8 (x : Int) : Nat := (x % 256).toNat

/-- The constant `_AT`. -/
def _AT : List Char := "AT".toList

/-- The constant `_OK`. -/
def _OK : List Char := "OK".toList

/-- The constant `_CME_ERROR`. -/
def _CME_ERROR : List Char := "CME ERROR: ".toList

/-! ## The serial port -/

/-- State of the `HardwareSerial` port as the driver sees it. -/
structure Uart where
  /-- Bytes received and not yet read (`available()` is `rx ≠ []`). -/
  rx : List Char
  /-- Bytes that arrive during each following millisecond of `delay`. -/
  incoming : List (List Char)
  /-- Bytes written to the module so far. -/
  tx : List Char
  deriving DecidableEq, Repr

namespace Uart

/-- One millisecond passes: the next scheduled bytes become readable. -/
def tick (u : Uart) : Uart :=
  match u.incoming with
  | [] => u
  | chunk :: later => { u with rx := u.rx ++ chunk, incoming := later }

/-- The port after `ms` milliseconds. -/
def wait : Nat → Uart → Uart
  | 0, u => u
  | ms + 1, u => wait ms u.tick

/-- The call `println(command)`: the command followed by CR LF. -/
def println (u : Uart) (command : List Char) : Uart :=
  { u with tx := u.tx ++ command ++ [CR, LF] }

/-- No byte is readable and none will ever arrive. -/
def Silent (u : Uart) : Prop :=
  u.rx = [] ∧ ∀ chunk ∈ u.incoming, chunk = []

instance (u : Uart) : Decidable u.Silent :=
  inferInstanceAs (Decidable (u.rx = [] ∧ ∀ chunk ∈ u.incoming, chunk = []))

end Uart

/-! ## The board: clock and digital lines -/

/-- The clock and the two digital lines of the board. The status line is
driven by the module: it starts at `statusInitial` and flips at each of the
times `statusEdges` (milliseconds since the start). -/
structure Board where
  /-- Milliseconds elapsed since the start. -/
  elapsed : Nat
  /-- Level of the status line at time 0 (`true` is `HIGH`). -/
  statusInitial : Bool
  /-- Times at which the status line flips. -/
  statusEdges : List Nat
  /-- Levels written to the power line so far, oldest first. -/
  powerWrites : List Bool
  deriving DecidableEq, Repr

namespace Board

/-- Level of the status line at time `t`. -/
def statusAt (b : Board) (t : Nat) : Bool :=
  if (b.statusEdges.filter (fun e => e ≤ t)).length % 2 = 0 then b.statusInitial
  else !b.statusInitial

/-- The Arduino call `millis()`, an `unsigned long` of 32 bits. -/
def millis (b : Board) : Nat := b.elapsed % 4294967296

end Board

/-! ## The driver object -/

/-- The constant `NOT_A_PIN`. -/
def NOT_A_PIN : Int := -1

/-- The fields of `NanoCellular` that the modelled functions touch, and the
board the object runs on. -/
structure NanoCellular where
  /-- The port `_uart`. -/
  uart : Uart
  /-- The reply buffer `char _buffer[255]`. -/
  _buffer : List Char
  /-- The field `int8_t _lastError`. -/
  _lastError : Int
  /-- Number of times `callWatchdog` ran. -/
  watchdogCalls : Nat
  /-- The field `int8_t _powerPin`. -/
  _powerPin : Int
  /-- The field `int8_t _statusPin`. -/
  _statusPin : Int
  /-- The field `uint32_t sslLength`. -/
  sslLength : Nat
  /-- The field `uint16_t _socket`. -/
  _socket : Nat
  /-- The staging buffer `char _readBuffer[255]`. -/
  _readBuffer : List Char
  /-- The field `TlsEncryption _encryption`, as its underlying `uint8_t`. -/
  _encryption : Nat
  /-- The board. -/
  board : Board
  deriving DecidableEq, Repr

/-- Declared size of `_buffer`. -/
def BUFFER_SIZE : Nat := 255

/-- The object is laid out as declared: `_buffer` has 255 bytes. -/
def WellFormed (s : NanoCellular) : Prop := s._buffer.length = BUFFER_SIZE

instance (s : NanoCellular) : Decidable (WellFormed s) :=
  inferInstanceAs (Decidable (s._buffer.length = BUFFER_SIZE))

/-- The method `callWatchdog`. -/
def callWatchdog (s : NanoCellular) : NanoCellular :=
  { s with watchdogCalls := s.watchdogCalls + 1 }

/-- The Arduino call `delay(ms)`. -/
def delay (ms : Nat) (s : NanoCellular) : NanoCellular :=
  { s with uart := s.uart.wait ms, board := { s.board with elapsed := s.board.elapsed + ms } }

/-- The method `flush`: read and discard every readable byte. -/
def flush (s : NanoCellular) : NanoCellular :=
  { s with uart := { s.uart with rx := [] } }

/-! ## `readReply` -/

/-- Locals of `readReply` together with the memory they index. -/
structure Frame where
  /-- Unread bytes of the port. -/
  rx : List Char
  /-- The local `uint16_t index`. -/
  index : Nat
  /-- The local `uint16_t linesFound`. -/
  linesFound : Nat
  /-- The array `_buffer`. -/
  buf : List Char
  deriving DecidableEq, Repr

/-- The inner loop `while (_uart->available())` of `readReply`, run on the
readable bytes `rx`. -/
def drain (lines : Nat) : List Char → Nat → Nat → List Char → Except Fault Frame
  | [], index, linesFound, buf => .ok ⟨[], index, linesFound, buf⟩
  | c :: rest, index, linesFound, buf =>
    if c = CR then drain lines rest index linesFound buf
    else if c = LF ∧ index = 0 then drain lines rest index linesFound buf
    else
      match poke buf index c with
      | .error e => .error e
      | .ok buf1 =>
        let index1 := (index + 1) % 65536
        let found1 := if c = LF then (linesFound + 1) % 65536 else linesFound
        if found1 ≥ lines then .ok ⟨rest, index1, found1, buf1⟩
        else drain lines rest index1 found1 buf1

/-- What `readReply` hands back, with the final value of its local `index`. -/
structure Outcome where
  /-- The returned `bool`. -/
  ok : Bool
  /-- Final value of the local `index`. -/
  index : Nat
  /-- The object afterwards. -/
  st : NanoCellular
  deriving DecidableEq, Repr

/-- The code after the outer loop of `readReply`: `_buffer[index] = 0; return true;`. -/
def terminate (s : NanoCellular) (index : Nat) : Except Fault Outcome :=
  match poke s._buffer index NUL with
  | .error e => .error e
  | .ok buf1 => .ok ⟨true, index, { s with _buffer := buf1 }⟩

/-- The outer loop `while (timeout--)` of `readReply`; the first argument is the
value of `timeout` when the loop condition is tested, so inside the body
`timeout` is `t` and the test `timeout <= 0` of the unsigned counter is `t = 0`.
When the condition fails on `0` the counter wraps to 65535, a value that is
never read again. -/
def readLoop (lines : Nat) : Nat → NanoCellular → Nat → Nat → Except Fault Outcome
  | 0, s, index, _ => terminate s index
  | t + 1, s, index, linesFound =>
    if index > 254 then terminate s index
    else
      match drain lines s.uart.rx index linesFound s._buffer with
      | .error e => .error e
      | .ok f =>
        let s1 := { s with uart := { s.uart with rx := f.rx }, _buffer := f.buf }
        if f.linesFound ≥ lines then terminate s1 f.index
        else if t = 0 then .ok ⟨false, f.index, s1⟩
        else readLoop lines t (delay 1 (callWatchdog s1)) f.index f.linesFound

/-- The method `readReply(timeout, lines)`, with the final `index` exposed. The
arguments stand for a `uint16_t` and a `uint8_t`. -/
def readReplyFrom (timeout lines : Nat) (s : NanoCellular) : Except Fault Outcome :=
  readLoop lines timeout s 0 0

/-- The method `readReply(timeout, lines)`. -/
def readReply (timeout lines : Nat) (s : NanoCellular) : Except Fault (Bool × NanoCellular) :=
  (readReplyFrom timeout lines s).map (fun o => (o.ok, o.st))

/-- The method `sendAndWaitForReply(command, timeout, lines)`. -/
def sendAndWaitForReply (command : List Char) (timeout lines : Nat) (s : NanoCellular) :
    Except Fault (Bool × NanoCellular) :=
  let s1 := flush s
  let s2 := { s1 with uart := s1.uart.println command }
  readReply timeout lines s2

/-! ## Words of the specification about framing -/

/-- The bytes of a received sequence that the framer appends to the buffer:
carriage returns are dropped, and so are the line feeds met while the buffer
is still empty. -/
def stored (bs : List Char) : List Char :=
  (bs.filter (fun c => c != CR)).dropWhile (fun c => c == LF)

/-- The counted line feeds of a received sequence: those that are appended. -/
def countedLines (bs : List Char) : Nat := (stored bs).count LF

/-- The array `buf` with the bytes `bs` written from index `i` on. -/
def blit (buf : List Char) (i : Nat) (bs : List Char) : List Char :=
  buf.take i ++ bs ++ buf.drop (i + bs.length)

/-- The method `sendAndCheckReply(command, reply, timeout)`: the status of the
transaction is discarded and `_buffer` is searched for `reply`. -/
def sendAndCheckReply (command reply : List Char) (timeout : Nat) (s : NanoCellular) :
    Except Fault (Bool × NanoCellular) :=
  match sendAndWaitForReply command timeout 1 s with
  | .error e => .error e
  | .ok (_, s1) => .ok ((strstr s1._buffer 0 reply).isSome, s1)

/-- The method `checkResult`. -/
def checkResult (s : NanoCellular) : Except Fault (Bool × NanoCellular) :=
  match strstr s._buffer 0 _OK with
  | some _ => .ok (true, { s with _lastError := 0 })
  | none =>
    match strstr s._buffer 0 _CME_ERROR with
    | none => .ok (false, { s with _lastError := -1 })
    | some _ =>
      let t := strtok s._buffer 0 _CME_ERROR
      match atoi t.buf t.token with
      | .error e => .error e
      | .ok v => .ok (false, { s with _buffer := t.buf, _lastError := toInt8 v })

/-! ## Network registration -/

/-- A value of `enum class NetworkRegistrationState : uint8_t`: any value of the
underlying type can be held, the six enumerators are `0..5`. -/
structure NetworkRegistrationState where
  /-- The underlying `uint8_t`. -/
  raw : Nat
  deriving DecidableEq, Repr

namespace NetworkRegistrationState

/-- Enumerator `NotRegistered = 0`. -/
def NotRegistered : NetworkRegistrationState := ⟨0⟩
/-- Enumerator `Registered`. -/
def Registered : NetworkRegistrationState := ⟨1⟩
/-- Enumerator `Searching`. -/
def Searching : NetworkRegistrationState := ⟨2⟩
/-- Enumerator `Denied`. -/
def Denied : NetworkRegistrationState := ⟨3⟩
/-- Enumerator `Unknown`. -/
def Unknown : NetworkRegistrationState := ⟨4⟩
/-- Enumerator `Roaming`. -/
def Roaming : NetworkRegistrationState := ⟨5⟩

/-- The six enumerators in declaration order. -/
def enumerators : List NetworkRegistrationState :=
  [NotRegistered, Registered, Searching, Denied, Unknown, Roaming]

end NetworkRegistrationState

/-- The tokenizing part of `getNetworkRegistration`, run on the reply buffer:
the result and the buffer as `strtok` leaves it. -/
def parseRegistration (buf : List Char) : NetworkRegistrationState × List Char :=
  let t1 := strtok buf 0 [',']
  match t1.token with
  | none => (NetworkRegistrationState.Unknown, t1.buf)
  | some _ =>
    let t2 := strtok t1.buf t1.save [',']
    match t2.token with
    | none => (NetworkRegistrationState.Unknown, t2.buf)
    | some p => (⟨castU8 (((charAt t2.buf p).toNat : Int) - 0x30)⟩, t2.buf)

/-- The method `getNetworkRegistration`. -/
def getNetworkRegistration (s : NanoCellular) :
    Except Fault (NetworkRegistrationState × NanoCellular) :=
  match sendAndWaitForReply "AT+CEREG?".toList 1000 3 s with
  | .error e => .error e
  | .ok (false, s1) => .ok (NetworkRegistrationState.Unknown, s1)
  | .ok (true, s1) =>
    let r := parseRegistration s1._buffer
    .ok (r.1, { s1 with _buffer := r.2 })

/-! ## Signal quality -/

/-- The loop `for (int x = 0; x < 6; x++)` of `getRSSI`, with `k` iterations
left: `false` is the `return 0` of its `else` branch, `true` is the loop running
to its end. -/
def rssiLoop : Nat → Tok → Bool × Tok
  | 0, t => (true, t)
  | k + 1, t =>
    match t.token with
    | some _ => rssiLoop k (strtok t.buf t.save [','])
    | none => (false, t)

/-- The tokenizing part of `getRSSI`, run on the reply buffer. -/
def parseRSSI (buf : List Char) : Except Fault (Nat × List Char) :=
  let t1 := strtok buf 0 [' ']
  match t1.token with
  | none => .ok (0, t1.buf)
  | some _ =>
    let t2 := strtok t1.buf t1.save [',']
    match t2.token with
    | none => .ok (0, t2.buf)
    | some _ =>
      match rssiLoop 6 t2 with
      | (false, t) => .ok (0, t.buf)
      | (true, t) =>
        match strtol t.buf t.token with
        | .error e => .error e
        | .ok v => .ok (castU8 v, t.buf)

/-- The method `getRSSI`. -/
def getRSSI (s : NanoCellular) : Except Fault (Nat × NanoCellular) :=
  match sendAndWaitForReply "AT+CESQ".toList 1000 3 s with
  | .error e => .error e
  | .ok (false, s1) => .ok (0, s1)
  | .ok (true, s1) =>
    match parseRSSI s1._buffer with
    | .error e => .error e
    | .ok (v, buf1) => .ok (v, { s1 with _buffer := buf1 })

/-! ## More of the C library -/

/-- Conversion of an integer to `uint16_t`. -/
def castU16 (x : Int) : Nat := (x % 65536).toNat

/-- Conversion of an integer to `uint32_t`. -/
def castU32 (x : Int) : Nat := (x % 4294967296).toNat

/-- Conversion of a `uint32_t` to `int` (32 bits). -/
def castInt (n : Nat) : Int :=
  if n % 4294967296 < 2147483648 then (n % 4294967296 : Nat) else (n % 4294967296 : Nat) - 4294967296

/-- The C library `strlen(p)` on a pointer into `buf`. -/
def strlen (buf : List Char) (p : Option Nat) : Except Fault Nat :=
  match p with
  | none => .error Fault.nullPointer
  | some off => .ok (cstrAt buf off).length

/-- The C library `strchr(buf + off, c)` for a byte `c` other than the
terminator: the offset in `buf` of the first `c` in the C string at `off`. -/
def strchr (buf : List Char) (off : Nat) (c : Char) : Option Nat :=
  if c ∈ cstrAt buf off then some (off + (cstrAt buf off).indexOf c) else none

/-- The C library `strncpy(dst, src, n)`, where `src` is the C string the
source pointer points at (`none` for a null pointer): exactly `n` bytes are
stored, the string cut at `n` bytes or filled up with terminators. -/
def strncpy (dst : List Char) (src : Option (List Char)) (n : Nat) : Except Fault (List Char) :=
  match src with
  | none => .error Fault.nullPointer
  | some str =>
    if n ≤ dst.length then
      .ok (blit dst 0 (str.take n ++ List.replicate (n - str.length) NUL))
    else .error Fault.outOfBounds

/-- The C library `sprintf(buf, ...)` that prints `text`. -/
def sprintf (buf : List Char) (text : List Char) : List Char := blit buf 0 (text ++ [NUL])

/-! ## Identity, SIM and battery queries -/

/-- The tokenizing part of `getSIMICCID`, run on the reply buffer `buf` with the
caller's array `buffer`: the returned length, the caller's array and the reply
buffer afterwards. -/
def parseICCID (buffer : List Char) (buf : List Char) :
    Except Fault (Nat × List Char × List Char) :=
  let t1 := strtok buf 0 [' ']
  match t1.token with
  | none => .ok (0, buffer, t1.buf)
  | some _ =>
    let t2 := strtok t1.buf t1.save [' ']
    match strlen t2.buf t2.token with
    | .error e => .error e
    | .ok n =>
      let len := n % 256
      match strncpy buffer (t2.token.map (cstrAt t2.buf)) (len + 1) with
      | .error e => .error e
      | .ok out => .ok (len, out, t2.buf)

/-- The method `getSIMICCID(buffer)`. -/
def getSIMICCID (buffer : List Char) (s : NanoCellular) :
    Except Fault (Nat × List Char × NanoCellular) :=
  match sendAndWaitForReply "AT#ICCID".toList 1000 3 s with
  | .error e => .error e
  | .ok (false, s1) => .ok (0, buffer, s1)
  | .ok (true, s1) =>
    match parseICCID buffer s1._buffer with
    | .error e => .error e
    | .ok (len, out, buf1) => .ok (len, out, { s1 with _buffer := buf1 })

/-- The tokenizing part of `getVoltage`, run on the reply buffer. The `double`
that the source returns, `milliVolts / 1000.0`, is the correctly rounded value
of the exact quotient, which is what the model returns. -/
def parseVoltage (buf : List Char) : Except Fault (ℚ × List Char) :=
  let t1 := strtok buf 0 [' ']
  match t1.token with
  | none => .ok (0, t1.buf)
  | some _ =>
    let t2 := strtok t1.buf t1.save [' ']
    match t2.token with
    | none => .ok (0, t2.buf)
    | some _ =>
      match strtol t2.buf t2.token with
      | .error e => .error e
      | .ok v => .ok ((castU16 v : ℚ) / 1000, t2.buf)

/-- The method `getVoltage`. -/
def getVoltage (s : NanoCellular) : Except Fault (ℚ × NanoCellular) :=
  match sendAndWaitForReply "AT%XVBAT".toList 1000 3 s with
  | .error e => .error e
  | .ok (false, s1) => .ok (0, s1)
  | .ok (true, s1) =>
    match parseVoltage s1._buffer with
    | .error e => .error e
    | .ok (v, buf1) => .ok (v, { s1 with _buffer := buf1 })

/-- The copying part of `getIMEI`, run on the reply buffer `reply` with the
caller's array `buffer`. The local `char buf[28]` holds the first 26 bytes of
the reply and a terminator. -/
def parseIMEI (buffer : List Char) (reply : List Char) : Except Fault (Nat × List Char) :=
  let buf := (cstr reply).take 26 ++ [NUL]
  match strncpy buffer ((strchr buf 0 '\"').map (cstrAt buf)) 15 with
  | .error e => .error e
  | .ok out =>
    match strlen out (some 0) with
    | .error e => .error e
    | .ok n => .ok (n % 256, out)

/-- The method `getIMEI(buffer)`. -/
def getIMEI (buffer : List Char) (s : NanoCellular) :
    Except Fault (Nat × List Char × NanoCellular) :=
  match sendAndWaitForReply "AT+CGSN=1".toList 1000 1 s with
  | .error e => .error e
  | .ok (false, s1) => .ok (0, buffer, s1)
  | .ok (true, s1) =>
    match parseIMEI buffer s1._buffer with
    | .error e => .error e
    | .ok (n, out) => .ok (n, out, s1)

/-- The method `getSimPresent`. -/
def getSimPresent (s : NanoCellular) : Except Fault (Bool × NanoCellular) :=
  match sendAndWaitForReply "AT%XSIM?".toList 1000 1 s with
  | .error e => .error e
  | .ok (false, s1) => .ok (false, s1)
  | .ok (true, s1) =>
    let t1 := strtok s1._buffer 0 [' ']
    let t2 := strtok t1.buf t1.save [' ']
    match t2.token with
    | some p => .ok (charAt t2.buf p == '1', { s1 with _buffer := t2.buf })
    | none => .ok (false, { s1 with _buffer := t2.buf })

/-! ## Socket data -/

/-- Modelled from the spec: `useEncryption` is called by `available` but defined
nowhere in the source (its declaration is commented out). The two modes are
"selected by whether an encrypted transport session is active", which the model
reads off the field `_encryption` (`TlsEncryption::None` is 0). -/
def useEncryption (s : NanoCellular) : Bool := s._encryption != 0

/-- The receive marker `"+QSSLRECV: "` that `available` looks for. -/
def QSSLRECV : List Char := "+QSSLRECV: ".toList

/-- The signature `"\n\n+QSSLRE"` of an interleaved notification. -/
def URC_SIGNATURE : List Char := "\n\n+QSSLRE".toList

/-- The part of `available` that reads the length out of the reply buffer: the
value stored in `sslLength` and the offset of `lfToken`. The local `numberStr`
is taken as the string it is meant to hold, the bytes between the marker and
the line feed (its terminator is stored at `numberStr[llen]`, one past the
declared array; the stack is not modelled). -/
def parseSslLength (buf : List Char) : Except Fault (Nat × Nat) :=
  match strstr buf 0 QSSLRECV with
  | none => .error Fault.nullPointer
  | some p =>
    let recvToken := p + 11
    match strstr buf recvToken [LF] with
    | none => .error Fault.nullPointer
    | some lfToken =>
      let numberStr := (buf.drop recvToken).take (lfToken - recvToken)
      .ok (castU32 (strtolStr numberStr), lfToken)

/-- The first 30 bytes of the reply buffer contain the signature. The local
`subbuff` is taken as those 30 bytes and a terminator (stored at `subbuff[30]`,
one past the declared array). -/
def urcDetected (buf : List Char) : Bool :=
  (strstr (buf.take 30 ++ [NUL]) 0 URC_SIGNATURE).isSome

/-- The end of the encrypted branch of `available`: `memcpy(_readBuffer, data,
sslLength); return sslLength;` with `data` an offset into `_buffer`. -/
def stage (data : Nat) (s : NanoCellular) : Except Fault (Int × NanoCellular) :=
  if data + s.sslLength ≤ s._buffer.length ∧ s.sslLength ≤ s._readBuffer.length then
    .ok (castInt s.sslLength,
      { s with _readBuffer := blit s._readBuffer 0 ((s._buffer.drop data).take s.sslLength) })
  else .error Fault.outOfBounds

/-- The plain branch of `available`, after its transaction succeeded; `none` is
the fall through to the final `return 0`. -/
def parseUnread (buf : List Char) : Except Fault (Option Nat × List Char) :=
  let t1 := strtok buf 0 [',']
  match t1.token with
  | none => .ok (none, t1.buf)
  | some _ =>
    let t2 := strtok t1.buf t1.save [',']
    match t2.token with
    | none => .ok (none, t2.buf)
    | some _ =>
      let t3 := strtok t2.buf t2.save [',']
      match t3.token with
      | none => .ok (none, t3.buf)
      | some _ =>
        match strtol t3.buf t3.token with
        | .error e => .error e
        | .ok v => .ok (some (castU16 v), t3.buf)

/-- The transaction of the encrypted branch of `available`: the command is
printed into `_buffer` (`sizeof(_buffer) - 36` is 219) and sent from there. -/
def receiveLengthQuery (s : NanoCellular) : Except Fault (Bool × NanoCellular) :=
  let s0 := { s with _buffer := sprintf s._buffer "AT+QSSLRECV=1,219".toList }
  sendAndWaitForReply (cstr s0._buffer) 1000 3 s0

/-- The method `available`. -/
def available (s : NanoCellular) : Except Fault (Int × NanoCellular) :=
  if useEncryption s then
    if s.sslLength > 0 then .ok (castInt s.sslLength, s)
    else
      match receiveLengthQuery s with
      | .error e => .error e
      | .ok (false, s1) => .ok (0, s1)
      | .ok (true, s1) =>
        match parseSslLength s1._buffer with
        | .error e => .error e
        | .ok (len, lfToken) =>
          let s2 := { s1 with sslLength := len }
          if len > 0 then
            if urcDetected s2._buffer then
              match readReply 1000 2 s2 with
              | .error e => .error e
              | .ok (true, s3) => stage 0 s3
              | .ok (false, s3) => stage (lfToken + 1) { s3 with sslLength := 0 }
            else stage (lfToken + 1) s2
          else .ok (castInt len, s2)
  else
    let s0 := { s with _buffer := sprintf s._buffer "AT+QIRD=1,0".toList }
    match sendAndWaitForReply (cstr s0._buffer) 1000 3 s0 with
    | .error e => .error e
    | .ok (false, s1) => .ok (0, s1)
    | .ok (true, s1) =>
      match parseUnread s1._buffer with
      | .error e => .error e
      | .ok (some unread, buf1) => .ok (unread, { s1 with _buffer := buf1 })
      | .ok (none, buf1) => .ok (0, { s1 with _buffer := buf1 })

/-- Arduino `Stream::timedRead`: the next byte of the port, waited for during at
most `ms` milliseconds. -/
def timedRead : Nat → NanoCellular → Option Char × NanoCellular
  | 0, s =>
    match s.uart.rx with
    | c :: rest => (some c, { s with uart := { s.uart with rx := rest } })
    | [] => (none, s)
  | ms + 1, s =>
    match s.uart.rx with
    | c :: rest => (some c, { s with uart := { s.uart with rx := rest } })
    | [] => timedRead ms (delay 1 s)

/-- Arduino `Stream::readBytes(buf, length)` with the default timeout of one
second per byte; the first argument is `length - count`. The result is the
count, the caller's array and the object. -/
def readBytes : Nat → Nat → List Char → NanoCellular →
    Except Fault (Nat × List Char × NanoCellular)
  | 0, count, buf, s => .ok (count, buf, s)
  | left + 1, count, buf, s =>
    match timedRead 1000 s with
    | (none, s1) => .ok (count, buf, s1)
    | (some c, s1) =>
      match poke buf count c with
      | .error e => .error e
      | .ok buf1 => readBytes left (count + 1) buf1 s1

/-- The method `read(buf, size)`: the returned `int`, the caller's array and the
object. -/
def read (buf : List Char) (size : Nat) (s : NanoCellular) :
    Except Fault (Int × List Char × NanoCellular) :=
  if size = 0 ∨ s._socket = 0 then .ok (0, buf, s)
  else
    let command := "AT#XTCPRECV=".toList ++ (Nat.repr s._socket).toList ++ [','] ++
      (Nat.repr size).toList ++ ",1".toList
    let s0 := { s with _buffer := sprintf s._buffer command }
    match sendAndWaitForReply (cstr s0._buffer) 1000 1 s0 with
    | .error e => .error e
    | .ok (false, s1) => .ok (0, buf, s1)
    | .ok (true, s1) =>
      if (strstr s1._buffer 0 "+QIRD:".toList).isSome then
        let t1 := strtok s1._buffer 0 [' ']
        let t2 := strtok t1.buf t1.save [LF]
        match strtol t2.buf t2.token with
        | .error e => .error e
        | .ok v =>
          let length := castU16 v
          match readBytes length 0 buf { s1 with _buffer := t2.buf } with
          | .error e => .error e
          | .ok (_, buf1, s2) =>
            match poke buf1 length NUL with
            | .error e => .error e
            | .ok buf2 => .ok (length, buf2, s2)
      else .ok (0, buf, s1)

/-! ## Power and bring-up -/

/-- The method `getStatus`. -/
def getStatus (s : NanoCellular) : Bool :=
  if s._statusPin = NOT_A_PIN then true else s.board.statusAt s.board.elapsed

/-- The Arduino call `digitalWrite(_powerPin, level)`. -/
def digitalWritePower (level : Bool) (s : NanoCellular) : NanoCellular :=
  { s with board := { s.board with powerWrites := s.board.powerWrites ++ [level] } }

/-- The loop `while (!getStatus()) { callWatchdog(); delay(500); }` of
`setPower(true)`, with `fuel` further samples of the status line allowed. -/
def waitStatus : Nat → NanoCellular → Except Fault NanoCellular
  | 0, s => if getStatus s then .ok s else .error Fault.hang
  | fuel + 1, s =>
    if getStatus s then .ok s else waitStatus fuel (delay 500 (callWatchdog s))

/-- Number of samples after which the status line has seen its last flip. -/
def statusFuel (s : NanoCellular) : Nat := s.board.statusEdges.foldl max 0 / 500 + 1

/-- The loop of `setPower(true)` that sends `AT` until the reply holds `"AT"`:
`while (timeout > 0) { flush(); if (sendAndCheckReply(_AT, "AT", 1000)) break;
callWatchdog(); delay(500); timeout -= 500; }`, where `timeout` is 500 times
the first argument. The result is what is left of `timeout`, in steps of 500. -/
def openCommunications : Nat → NanoCellular → Except Fault (Nat × NanoCellular)
  | 0, s => .ok (0, s)
  | k + 1, s =>
    match sendAndCheckReply _AT _AT 1000 (flush s) with
    | .error e => .error e
    | .ok (true, s1) => .ok (k + 1, s1)
    | .ok (false, s1) => openCommunications k (delay 500 (callWatchdog s1))

/-- The loop of `setPower(false)` that sends `AT` until the reply holds `"OK"`,
two attempts per round, where `timeout` is 500 times the first argument. -/
def wakeForShutdown : Nat → NanoCellular → Except Fault (Nat × NanoCellular)
  | 0, s => .ok (0, s)
  | k + 1, s =>
    match sendAndCheckReply _AT _OK 1000 (flush s) with
    | .error e => .error e
    | .ok (true, s1) => .ok (k + 1, s1)
    | .ok (false, s1) =>
      match sendAndCheckReply _AT _OK 1000 s1 with
      | .error e => .error e
      | .ok (true, s2) => .ok (k + 1, s2)
      | .ok (false, s2) => wakeForShutdown k (delay 500 (callWatchdog s2))

/-- The loop `while (timeout > millis())` of `setPower(false)` that waits for
`"+SHUTDOWN"`, with `fuel` rounds allowed. -/
def awaitShutdown (timeout : Nat) : Nat → NanoCellular → Except Fault NanoCellular
  | 0, s => if timeout > s.board.millis then .error Fault.hang else .ok s
  | fuel + 1, s =>
    if timeout > s.board.millis then
      match readReply 1000 1 s with
      | .error e => .error e
      | .ok (true, s1) =>
        if (strstr s1._buffer 0 "+SHUTDOWN".toList).isSome then
          .ok (if s1._powerPin ≠ NOT_A_PIN then digitalWritePower false s1 else s1)
        else awaitShutdown timeout fuel (callWatchdog s1)
      | .ok (false, s1) => awaitShutdown timeout fuel (callWatchdog s1)
    else .ok s

/-- Bytes readable now or scheduled to arrive. -/
def pendingBytes (u : Uart) : Nat := u.rx.length + (u.incoming.map List.length).sum

/-- The start of `setPower(true)`: the power line, if there is one, goes low for
300 ms and high again. -/
def powerCycle (s : NanoCellular) : NanoCellular :=
  if s._powerPin ≠ NOT_A_PIN then digitalWritePower true (delay 300 (digitalWritePower false s))
  else s

/-- The method `setPower(state)`. -/
def setPower (state : Bool) (s : NanoCellular) : Except Fault (Bool × NanoCellular) :=
  if state then
    match waitStatus (statusFuel (powerCycle s)) (powerCycle s) with
    | .error e => .error e
    | .ok s2 =>
      match openCommunications 14 s2 with
      | .error e => .error e
      | .ok (left, s3) =>
        if (500 * (left : Int)) < 0 then .ok (false, s3) else .ok (true, s3)
  else
    if !getStatus s then .ok (true, s)
    else
      match wakeForShutdown 10 s with
      | .error e => .error e
      | .ok (_, s1) =>
        match sendAndCheckReply "ATE0".toList _OK 1000 s1 with
        | .error e => .error e
        | .ok (_, s2) =>
          match sendAndCheckReply "AT#URC=\"LWM2M\",1".toList _OK 1000 s2 with
          | .error e => .error e
          | .ok (false, s3) => .ok (false, s3)
          | .ok (true, s3) =>
            match sendAndCheckReply "AT#URC=\"SOCK\",1".toList _OK 1000 s3 with
            | .error e => .error e
            | .ok (false, s4) => .ok (false, s4)
            | .ok (true, s4) =>
              match sendAndCheckReply "AT#SHUTDOWN".toList _OK 10000 s4 with
              | .error e => .error e
              | .ok (false, s5) => .ok (false, s5)
              | .ok (true, s5) =>
                match awaitShutdown ((s5.board.millis + 60000) % 4294967296)
                    (60001 + pendingBytes s5.uart) s5 with
                | .error e => .error e
                | .ok s6 => .ok (false, s6)

/-- The two loops of `begin` that poll for a marker: `while (timeout > 0) { if
(readReply(500, 1) && strstr(_buffer, marker)) break; callWatchdog();
delay(500); timeout -= 500; }`, where `timeout` is 500 times the first
argument. The result is what is left of `timeout`, in steps of 500. -/
def awaitMarker (marker : List Char) : Nat → NanoCellular → Except Fault (Nat × NanoCellular)
  | 0, s => .ok (0, s)
  | k + 1, s =>
    match readReply 500 1 s with
    | .error e => .error e
    | .ok (found, s1) =>
      if found && (strstr s1._buffer 0 marker).isSome then .ok (k + 1, s1)
      else awaitMarker marker k (delay 500 (callWatchdog s1))

/-- The registration loop of `begin`: `while (timeout > 0) { state =
getNetworkRegistration(); ...; callWatchdog(); delay(500); timeout -= 500; if
(state == Registered || state == Roaming) break; }`, where `timeout` is 500
times the first argument. The result is what is left of `timeout`, in steps of
500. -/
def awaitRegistration : Nat → NanoCellular → Except Fault (Nat × NanoCellular)
  | 0, s => .ok (0, s)
  | k + 1, s =>
    match getNetworkRegistration s with
    | .error e => .error e
    | .ok (state, s1) =>
      if state = NetworkRegistrationState.Registered ∨
          state = NetworkRegistrationState.Roaming then
        .ok (k, delay 500 (callWatchdog s1))
      else awaitRegistration k (delay 500 (callWatchdog s1))

/-- The part of `begin` that follows the SIM check. -/
def bringUp (s : NanoCellular) : Except Fault (Bool × NanoCellular) :=
  match awaitMarker "READY".toList 10 s with
  | .error e => .error e
  | .ok (left, s1) =>
    if left ≤ 0 then .ok (false, s1)
    else
      match awaitMarker "CONNECTED".toList 120 s1 with
      | .error e => .error e
      | .ok (left1, s2) =>
        match awaitRegistration left1 s2 with
        | .error e => .error e
        | .ok (left2, s3) =>
          if left2 ≤ 0 then .ok (false, s3)
          else
            match sendAndCheckReply "ATE0".toList _OK 1000 s3 with
            | .error e => .error e
            | .ok (_, s4) =>
              match sendAndCheckReply "AT+CMEE=2".toList _OK 1000 s4 with
              | .error e => .error e
              | .ok (_, s5) => .ok (true, callWatchdog s5)

/-- The method `begin`. -/
def begin (s : NanoCellular) : Except Fault (Bool × NanoCellular) :=
  match setPower false s with
  | .error e => .error e
  | .ok (_, s1) =>
    match setPower true s1 with
    | .error e => .error e
    | .ok (_, s2) =>
      match getSimPresent s2 with
      | .error e => .error e
      | .ok (false, s3) => .ok (false, s3)
      | .ok (true, s3) => bringUp s3

/-! ## Words of the specification about the waits and the socket state -/

/-- What reading from the port leaves alone: every field of the object but the
reply buffer's content, the port's receive side, the watchdog count and the
clock. -/
def Untouched (s s1 : NanoCellular) : Prop :=
  s1._lastError = s._lastError ∧ s1._powerPin = s._powerPin ∧ s1._statusPin = s._statusPin ∧
  s1.sslLength = s.sslLength ∧ s1._socket = s._socket ∧ s1._readBuffer = s._readBuffer ∧
  s1._encryption = s._encryption ∧ s1._buffer.length = s._buffer.length ∧
  s1.uart.tx = s.uart.tx ∧ s1.board.statusInitial = s.board.statusInitial ∧
  s1.board.statusEdges = s.board.statusEdges ∧ s1.board.powerWrites = s.board.powerWrites

/-- The outcomes of the polls `readReply(500, 1)` of a marker wait of `k` rounds
that starts in `s` and is not cut short by its marker. -/
def pollReplies : Nat → NanoCellular → List (Except Fault (Bool × NanoCellular))
  | 0, _ => []
  | k + 1, s =>
    readReply 500 1 s ::
      match readReply 500 1 s with
      | .ok (_, s1) => pollReplies k (delay 500 (callWatchdog s1))
      | .error _ => []

/-- Nothing is readable and nothing arrives during the next `t` milliseconds. -/
def QuietFor (t : Nat) (s : NanoCellular) : Prop :=
  s.uart.rx = [] ∧ ∀ chunk ∈ s.uart.incoming.take t, chunk = []

instance (t : Nat) (s : NanoCellular) : Decidable (QuietFor t s) :=
  inferInstanceAs (Decidable (s.uart.rx = [] ∧ ∀ chunk ∈ s.uart.incoming.take t, chunk = []))

/-- The object after `t` milliseconds in which nothing arrived and the watchdog
was called `w` times. -/
def elapse (t w : Nat) (s : NanoCellular) : NanoCellular :=
  { s with
    uart := { s.uart with incoming := s.uart.incoming.drop t },
    watchdogCalls := s.watchdogCalls + w,
    board := { s.board with elapsed := s.board.elapsed + t } }

/-- The object after `t` milliseconds in which nothing arrived and the watchdog
was called `w` times, with `rest` as the schedule from then on. -/
def resume (t w : Nat) (rest : List (List Char)) (s : NanoCellular) : NanoCellular :=
  { s with
    uart := { s.uart with incoming := rest },
    watchdogCalls := s.watchdogCalls + w,
    board := { s.board with elapsed := s.board.elapsed + t } }

/-- The port with `extra` appended to the schedule of arriving bytes. -/
def Uart.prolong (extra : List (List Char)) (u : Uart) : Uart :=
  { u with incoming := u.incoming ++ extra }

/-- The object with `extra` appended to the schedule of its port. -/
def prolong (extra : List (List Char)) (s : NanoCellular) : NanoCellular :=
  { s with uart := s.uart.prolong extra }

/-- A run of `f` that ends before the schedule is used up goes the same way on
every longer schedule; and a schedule that is used up stays so. -/
def Prolongs {α : Type} (f : NanoCellular → Except Fault (α × NanoCellular)) : Prop :=
  ∀ (s r : NanoCellular) (a : α), f s = .ok (a, r) →
    (s.uart.incoming = [] → r.uart.incoming = []) ∧
    (r.uart.incoming ≠ [] → ∀ extra, f (prolong extra s) = .ok (a, prolong extra r))

/-- A poll came back, and not with a line that contains `marker`. -/
def missed (marker : List Char) (r : Except Fault (Bool × NanoCellular)) : Bool :=
  match r with
  | .ok (found, s1) => !(found && (strstr s1._buffer 0 marker).isSome)
  | .error _ => false

/-! ## Sample states -/

/-- An object with an empty port, a given schedule of arriving bytes and a
buffer that holds the C string `old` (zero-filled up to 255 bytes). -/
def sample (rx : List Char) (incoming : List (List Char)) (old : List Char) : NanoCellular :=
  { uart := { rx := rx, incoming := incoming, tx := [] },
    _buffer := old ++ List.replicate (BUFFER_SIZE - old.length) NUL,
    _lastError := 0,
    watchdogCalls := 0,
    _powerPin := NOT_A_PIN,
    _statusPin := NOT_A_PIN,
    sslLength := 0,
    _socket := 0,
    _readBuffer := List.replicate BUFFER_SIZE NUL,
    _encryption := 0,
    board := { elapsed := 0, statusInitial := true, statusEdges := [], powerWrites := [] } }

/-- A line of 254 letters and its line feed, all readable at once. -/
def overlongLine : NanoCellular :=
  sample (List.replicate 254 'A' ++ [LF]) [] []

/-- 255 readable letters and no line feed. -/
def flood255 : NanoCellular := sample (List.replicate 255 'A') [] []

/-- 300 readable letters and no line feed. -/
def flood300 : NanoCellular := sample (List.replicate 300 'A') [] []

/-- A silent port, with the previous reply `"OK\n"` still in the buffer. -/
def staleOK : NanoCellular := sample [] [] "OK\n".toList

/-- The value a call comes back with, `d` if it faults. -/
def valueOr {α : Type} (r : Except Fault α) (d : α) : α :=
  match r with
  | .ok a => a
  | .error _ => d

/-- The object a transaction leaves behind (the object itself if it faults). -/
def stateAfter {α : Type} (r : Except Fault (α × NanoCellular)) (s : NanoCellular) :
    NanoCellular :=
  match r with
  | .ok (_, s1) => s1
  | .error _ => s

/-- The module answers the next command with `+CME ERROR: 50`; the error code
recorded so far is 3. -/
def cmeReply : NanoCellular :=
  { sample [] ["\r\n+CME ERROR: 50\r\n".toList] [] with _lastError := 3 }

/-- The reply buffer holds the line `+CME ERROR: 50`; the error code recorded so
far is 3. -/
def cmeBuffer : NanoCellular :=
  { sample [] [] "+CME ERROR: 50\n".toList with _lastError := 3 }

/-- The module answers `AT+CEREG?` with registration status 5. -/
def roamingReply : NanoCellular :=
  sample [] ["\r\n+CEREG: 0,5\r\n".toList, "\r\nOK\r\n".toList] []

/-- The module answers `AT+CEREG?` with the status digit 7. -/
def sevenReply : NanoCellular :=
  sample [] ["\r\n+CEREG: 0,7\r\n".toList, "\r\nOK\r\n".toList] []

/-- The module answers `AT+CESQ` with the reply documented in `getRSSI`. -/
def cesqReply : NanoCellular :=
  sample [] ["\r\n+CESQ: 99,99,255,255,16,47\r\n".toList, "\r\nOK\r\n".toList] []

/-- The reply buffer holds `+CESQ: 99,99,255,255,16,47`, a line feed and `OK`. -/
def cesqBuffer : List Char :=
  (sample [] [] "+CESQ: 99,99,255,255,16,47\nOK".toList)._buffer

/-- Three lines readable at once, the third without its line feed. -/
def threeLines : NanoCellular := sample "\r\nAT\r\nOK\r\n+URC".toList [] []

/-- A caller's array of `n` zero bytes. -/
def zeros (n : Nat) : List Char := List.replicate n NUL

/-- The reply buffer holds `#ICCID: 898600220909A0206023`, a line feed and `OK`. -/
def iccidBuffer : List Char :=
  (sample [] [] "#ICCID: 898600220909A0206023\nOK".toList)._buffer

/-- The module answers `AT#ICCID` with the reply documented in `getSIMICCID`. -/
def iccidReply : NanoCellular :=
  sample [] ["\r\n#ICCID: 898600220909A0206023\r\n".toList, "\r\nOK\r\n".toList] []

/-- The reply buffer holds `%XVBAT: 5059`, a line feed and `OK`. -/
def xvbatBuffer : NanoCellular := sample [] [] "%XVBAT: 5059\nOK".toList

/-- The module answers `AT%XVBAT` with the reply documented in `getVoltage`. -/
def xvbatReply : NanoCellular :=
  sample [] ["\r\n%XVBAT: 5059\r\n".toList, "\r\nOK\r\n".toList] []

/-- The module answers `AT+CGSN=1` with the IMEI in double quotes. -/
def imeiReply : NanoCellular :=
  sample [] ["\r\n+CGSN: \"352656100367872\"\r\n".toList, "\r\nOK\r\n".toList] []

/-- Encrypted mode; a notification precedes the answer `+QSSLRECV: 5`, and the
payload `hello` follows a millisecond later. -/
def urcFirst : NanoCellular :=
  { sample [] ["\r\n+QSSLURC: \"recv\",1\r\n".toList, "\r\n+QSSLRECV: 5\r\n".toList,
      "hello\r\n\r\nOK\r\n".toList] [] with _encryption := 4 }

/-- Encrypted mode; a notification precedes the answer `+QSSLRECV: 0`. -/
def urcZero : NanoCellular :=
  { sample [] ["\r\n+QSSLURC: \"recv\",1\r\n".toList, "\r\n+QSSLRECV: 0\r\n".toList,
      "\r\nOK\r\n".toList] [] with _encryption := 4 }

/-- Encrypted mode; a notification precedes the answer `+QSSLRECV: 5`, and
nothing follows. -/
def urcLost : NanoCellular :=
  { sample [] ["\r\n+QSSLURC: \"recv\",1\r\n".toList, "\r\n+QSSLRECV: 5\r\n".toList] [] with
    _encryption := 4 }

/-- Encrypted mode with five bytes staged, on an open socket whose next receive
command is answered with five bytes. -/
def stagedFive : NanoCellular :=
  { sample [] ["+QIRD: 5\r\nhello\r\n".toList] [] with
    _encryption := 4, sslLength := 5, _socket := 1,
    _readBuffer := "hello".toList ++ List.replicate 250 NUL }

/-- An open socket whose next receive command is answered with the header
`+QIRD: 5` and two bytes of payload, followed by a second of silence. -/
def shortPayload : NanoCellular :=
  { sample [] ("+QIRD: 5\r\nhe".toList :: List.replicate 1000 []) [] with _socket := 1 }

/-- A board whose status line rises after 100 ms and a module that, once the
line is up, echoes `AT`, reports a SIM and then sends what `later` schedules. -/
def booting (later : List (List Char)) : NanoCellular :=
  { sample [] (List.replicate 500 [] ++ ["AT\r\n".toList, "%XSIM: 1\r\n".toList] ++ later) [] with
    _statusPin := 3,
    board := { elapsed := 0, statusInitial := false, statusEdges := [100], powerWrites := [] } }

/-- The module boots, sends the line `BOOT` and stays silent for ten seconds. -/
def neverReady : NanoCellular := booting (["BOOT\r\n".toList] ++ List.replicate 10000 [])

/-- The object after the power stage of `begin`: `setPower(false)`, then
`setPower(true)`. -/
def powered (s : NanoCellular) : NanoCellular :=
  stateAfter (setPower true (stateAfter (setPower false s) s)) s

/-- The object after the power stage and the SIM check of `begin`. -/
def simChecked (s : NanoCellular) : NanoCellular :=
  stateAfter (getSimPresent (powered s)) s

/-- The module boots and sends `READY`; one more millisecond is scheduled. -/
def readyBoot : NanoCellular := booting ["READY\r\n".toList, []]

/-- What the module sends after the silence: `CONNECTED`, and the answer to the
registration query with status 1. -/
def lateTail : List (List Char) :=
  ["CONNECTED\r\n".toList, "\r\n+CEREG: 0,1\r\n\r\nOK\r\n".toList] ++ List.replicate 500 []

/-- The module boots, sends `READY`, stays silent during 119 polls of the
network wait (118881 ms), sends `CONNECTED` during the 120th and answers the
registration query with status 1. -/
def lateConnected : NanoCellular := prolong (List.replicate 118880 [] ++ lateTail) readyBoot

/-- The object `readyBoot` after `setPower(true)`. -/
def readyOn : NanoCellular := stateAfter (setPower true readyBoot) readyBoot

/-- The object `readyOn` after the SIM check. -/
def readySim : NanoCellular := stateAfter (getSimPresent readyOn) readyOn

/-- The object `readySim` after the readiness wait of `begin`. -/
def readyDone : NanoCellular := stateAfter (awaitMarker "READY".toList 10 readySim) readySim

/-- The object `lateConnected` after the readiness wait and 119 silent rounds of
the network wait. -/
def lateLast : NanoCellular := resume (999 * 119) (500 * 119) lateTail readyDone

/-- The object `lateLast` after the round of the network wait that reads
`CONNECTED`. -/
def lateMarked : NanoCellular :=
  stateAfter (awaitMarker "CONNECTED".toList 1 lateLast) lateLast

/-- The object `lateMarked` after the registration query. -/
def lateAnswered : NanoCellular := stateAfter (getNetworkRegistration lateMarked) lateMarked

/-- The object after the receive-length transaction of `available`. -/
def afterQuery (s : NanoCellular) : NanoCellular := stateAfter (receiveLengthQuery s) s

/-- The object after the additional read of `available`, with `len` stored as
the pending length. -/
def afterRecovery (len : Nat) (s : NanoCellular) : NanoCellular :=
  stateAfter (readReply 1000 2 { afterQuery s with sslLength := len }) s

/-- The caller's array and the object after `read(buf, 10)` on `stagedFive`. -/
def stagedRead : Int × List Char × NanoCellular :=
  valueOr (read (zeros 16) 10 stagedFive) (0, zeros 16, stagedFive)

/-- Two line feeds, the line `A`, and a second of silence. -/
def twoLineFeeds : NanoCellular := sample "\n\nA\n".toList (List.replicate 1000 []) []

/-- The module answers `AT%XVBAT` with the two documented lines, each ended by
CR LF, and nothing else; a second of silence follows. -/
def xvbatTwoLines : NanoCellular :=
  sample [] ("%XVBAT: 5059\r\nOK\r\n".toList :: List.replicate 1000 []) []

/-- The module answers `AT%XVBAT` with CR LF, the line `%XVBAT: 5059`, an empty
line and the line `OK`, all in the first millisecond. -/
def xvbatFramed : NanoCellular := sample [] ["\r\n%XVBAT: 5059\r\n\r\nOK\r\n".toList] []

/-- An open socket whose next receive command is answered with the header
`+QIRD: 5` and five bytes of payload. -/
def fiveDeclared : NanoCellular :=
  { sample [] ("+QIRD: 5\r\nhello\r\n".toList :: List.replicate 10 []) [] with _socket := 1 }

/-- A module that is on (no status pin, power line on pin 5), answers `AT` and
the four commands of the shutdown sequence with `OK` and then sends
`+SHUTDOWN`. -/
def shuttingDown : NanoCellular :=
  { sample []
      (["OK\r\n".toList, "OK\r\n".toList, "OK\r\n".toList, "OK\r\n".toList, "OK\r\n".toList,
        "+SHUTDOWN\r\n".toList] ++ List.replicate 10 []) [] with
    _powerPin := 5 }

/-! # Theorems -/

/-! ## A port that stays silent -/

theorem Uart.Silent.tick {u : Uart} (h : u.Silent) : u.tick.Silent := by
  obtain ⟨hrx, hin⟩ := h
  unfold Uart.tick
  cases hi : u.incoming with
  | nil => exact ⟨hrx, by simp [hi]⟩
  | cons chunk later =>
    have hc : chunk = [] := hin chunk (by simp [hi])
    refine ⟨by simp [hrx, hc], ?_⟩
    intro c hmem
    exact hin c (by simp [hi, hmem])

theorem Uart.Silent.wait {u : Uart} (h : u.Silent) (ms : Nat) : (u.wait ms).Silent := by
  induction ms generalizing u with
  | zero => exact h
  | succ n ih => exact ih h.tick

/-- On a silent port with at least one line expected, the framing loop runs out
its budget and returns `false`; the buffer is not written. -/
theorem readLoop_silent (lines : Nat) (hl : 1 ≤ lines) (t : Nat) (s : NanoCellular)
    (hs : s.uart.Silent) :
    ∃ s1, readLoop lines (t + 1) s 0 0 = .ok ⟨false, 0, s1⟩ ∧ s1._buffer = s._buffer ∧
      s1._lastError = s._lastError ∧ s1.uart.Silent := by
  induction t generalizing s with
  | zero =>
    refine ⟨s, ?_, rfl, rfl, hs⟩
    have hrx := hs.1
    simp only [readLoop, hrx, drain]
    have : ¬ (0 ≥ lines) := by omega
    simp [this]
    cases s
    rename_i u _ _ _ _ _ _ _ _ _ _
    cases u
    simp_all
  | succ n ih =>
    have hrx := hs.1
    have hs1 : (delay 1 (callWatchdog s)).uart.Silent := by
      simpa [delay, callWatchdog] using hs.wait 1
    obtain ⟨s1, h1, h2, h3, h4⟩ := ih (delay 1 (callWatchdog s)) hs1
    refine ⟨s1, ?_, by simpa [delay, callWatchdog] using h2, by simpa [delay, callWatchdog] using h3, h4⟩
    rw [readLoop]
    have : ¬ (0 ≥ lines) := by omega
    simp only [hrx, drain]
    simp [this]
    rw [← h1]
    congr 1
    cases s
    rename_i u _ _ _ _ _ _ _ _ _ _
    cases u
    simp_all

/-! ## The inner loop on bytes that are already readable -/

theorem blit_length (buf : List Char) (i : Nat) (bs : List Char) (h : i + bs.length ≤ buf.length) :
    (blit buf i bs).length = buf.length := by
  simp [blit]; omega

theorem blit_nil (buf : List Char) (i : Nat) : blit buf i [] = buf := by
  simp [blit]

theorem blit_set_cons (buf : List Char) (i : Nat) (c : Char) (bs : List Char)
    (h : i < buf.length) :
    blit (buf.set i c) (i + 1) bs = blit buf i (c :: bs) := by
  have hset : buf.set i c = buf.take i ++ c :: buf.drop (i + 1) := by
    rw [List.set_eq_take_append_cons_drop, if_pos h]
  have hlen : (buf.take i).length = i := by simp; omega
  have htake : (buf.set i c).take (i + 1) = buf.take i ++ [c] := by
    rw [hset, List.take_append_eq_append_take, hlen]
    have : i + 1 - i = 1 := by omega
    rw [this, List.take_of_length_le (by omega)]
    simp
  have hdrop : (buf.set i c).drop (i + 1 + bs.length) = buf.drop (i + (bs.length + 1)) := by
    rw [hset, List.drop_append_eq_append_drop, hlen, List.drop_of_length_le (by omega)]
    have : i + 1 + bs.length - i = bs.length + 1 := by omega
    rw [this]
    simp [List.drop_drop]
    congr 1
    omega
  simp only [blit, List.length_cons, htake, hdrop]
  simp

theorem drain_mid (lines : Nat) (body rest : List Char) :
    ∀ (i l : Nat) (buf : List Char), 0 < i →
      i + (body.filter (fun c => c != CR)).length ≤ buf.length → buf.length < 65536 →
      l + (body.filter (fun c => c != CR)).count LF < lines → l ≤ i →
      drain lines (body ++ rest) i l buf =
        drain lines rest (i + (body.filter (fun c => c != CR)).length)
          (l + (body.filter (fun c => c != CR)).count LF)
          (blit buf i (body.filter (fun c => c != CR))) := by
  induction body with
  | nil => intro i l buf _ _ _ _ _; simp [blit_nil]
  | cons c body ih =>
    intro i l buf hi hfit hcap hcnt hlines
    by_cases hc : c = CR
    · subst hc
      simp only [List.cons_append, drain, if_true]
      have := ih i l buf hi (by simpa using hfit) hcap (by simpa using hcnt) hlines
      simpa using this
    · have hf : (c :: body).filter (fun c => c != CR) = c :: body.filter (fun c => c != CR) := by
        simp [hc]
      rw [hf] at hfit hcnt ⊢
      simp only [List.length_cons] at hfit
      have hi0 : ¬ (c = LF ∧ i = 0) := by omega
      have hpk : poke buf i c = .ok (buf.set i c) := by
        simp [poke]; omega
      simp only [List.cons_append, drain, if_neg hc, if_neg hi0, hpk]
      have hmod : (i + 1) % 65536 = i + 1 := Nat.mod_eq_of_lt (by omega)
      rw [hmod]
      have hcount : List.count LF (c :: body.filter (fun c => c != CR)) =
          (if c = LF then 1 else 0) + List.count LF (body.filter (fun c => c != CR)) := by
        rw [List.count_cons]
        by_cases h : c = LF
        · simp [h]; omega
        · simp [h]
      rw [hcount] at hcnt
      have hfound : (if c = LF then (l + 1) % 65536 else l) = l + (if c = LF then 1 else 0) := by
        by_cases h : c = LF
        · simp only [h, if_true]
          apply Nat.mod_eq_of_lt
          simp only [h, if_true] at hcnt
          omega
        · simp [h]
      rw [hfound]
      have hlt : ¬ (l + (if c = LF then 1 else 0) ≥ lines) := by omega
      simp only [if_neg hlt]
      simp only [List.append_eq]
      rw [ih (i + 1) (l + (if c = LF then 1 else 0)) (buf.set i c) (by omega)
        (by simp; omega) (by simpa using hcap) (by omega) (by split <;> omega)]
      rw [blit_set_cons buf i c _ (by omega), hcount]
      simp only [List.length_cons]
      congr 1 <;> omega


theorem drain_start (lines : Nat) (body rest : List Char) (buf : List Char)
    (hfit : (stored body).length ≤ buf.length) (hcap : buf.length < 65536)
    (hcnt : (stored body).count LF < lines) :
    drain lines (body ++ rest) 0 0 buf =
      drain lines rest (stored body).length ((stored body).count LF) (blit buf 0 (stored body)) := by
  induction body generalizing buf with
  | nil => simp [stored, blit_nil]
  | cons c body ih =>
    by_cases hc : c = CR
    · subst hc
      have hst : stored (CR :: body) = stored body := by simp [stored]
      rw [hst] at hfit hcnt ⊢
      simp only [List.cons_append, drain, if_true, List.append_eq]
      exact ih buf hfit hcap hcnt
    · by_cases hl : c = LF
      · subst hl
        have hst : stored (LF :: body) = stored body := by simp [stored, hc]
        rw [hst] at hfit hcnt ⊢
        simp only [List.cons_append, drain, if_neg hc, and_self, if_true, List.append_eq]
        exact ih buf hfit hcap hcnt
      · have hst : stored (c :: body) = c :: body.filter (fun c => c != CR) := by
          simp [stored, hc, hl]
        rw [hst] at hfit hcnt ⊢
        simp only [List.length_cons] at hfit
        have hcount : List.count LF (c :: body.filter (fun c => c != CR)) =
            List.count LF (body.filter (fun c => c != CR)) := by
          rw [List.count_cons]; simp [hl]
        rw [hcount] at hcnt ⊢
        have hi0 : ¬ (c = LF ∧ 0 = 0) := by simp [hl]
        have hpk : poke buf 0 c = .ok (buf.set 0 c) := by
          have hpos : 0 < buf.length := by omega
          simp only [poke, if_pos hpos]
        simp only [List.cons_append, drain, if_neg hc, if_neg hi0, hpk, if_neg hl]
        have h0 : ¬ (0 ≥ lines) := by omega
        simp only [if_neg h0, List.append_eq]
        have := drain_mid lines body rest (0 + 1) 0 (buf.set 0 c) (by omega)
          (by simp; omega) (by simpa using hcap) (by omega) (by omega)
        simp only [Nat.zero_add] at this ⊢
        rw [this, blit_set_cons buf 0 c _ (by omega)]
        simp only [List.length_cons, Nat.zero_add, hl, false_and, if_false]
        rw [Nat.add_comm]

/-! ## Locating the line feed that completes a line -/

theorem count_split (a : Char) (L : List Char) :
    ∀ n, 1 ≤ n → n ≤ L.count a → ∃ X Y, L = X ++ a :: Y ∧ X.count a + 1 = n := by
  induction L with
  | nil => intro n h1 h2; simp at h2; omega
  | cons c L ih =>
    intro n h1 h2
    by_cases hc : c = a
    · subst hc
      by_cases hn : n = 1
      · exact ⟨[], L, by simp, by simp [hn]⟩
      · have h3 : n - 1 ≤ L.count c := by
          simp at h2; omega
        obtain ⟨X, Y, hL, hX⟩ := ih (n - 1) (by omega) h3
        exact ⟨c :: X, Y, by simp [hL], by simp; omega⟩
    · have h3 : n ≤ L.count a := by
        rw [List.count_cons] at h2
        simp [hc] at h2
        exact h2
      obtain ⟨X, Y, hL, hX⟩ := ih n h1 h3
      refine ⟨c :: X, Y, by simp [hL], ?_⟩
      rw [List.count_cons]
      simp [hc, hX]

theorem filter_split (rx X Y : List Char)
    (h : rx.filter (fun c => c != CR) = X ++ LF :: Y) :
    ∃ body post, rx = body ++ LF :: post ∧ body.filter (fun c => c != CR) = X := by
  obtain ⟨l1, l2, hrx, h1, h2⟩ := List.filter_eq_append_iff.mp h
  obtain ⟨m1, m2, hl2, hm1, _, _⟩ := List.filter_eq_cons_iff.mp h2
  refine ⟨l1 ++ m1, m2, by simp [hrx, hl2], ?_⟩
  rw [List.filter_append, h1]
  have : m1.filter (fun c => c != CR) = [] := by
    rw [List.filter_eq_nil_iff]
    exact hm1
  simp [this]

theorem stored_split (rx X Y : List Char) (h : stored rx = X ++ LF :: Y) :
    ∃ body post, rx = body ++ LF :: post ∧ stored body = X ∧ X ≠ [] := by
  have hX : X ≠ [] := by
    intro hx
    subst hx
    have := List.head?_dropWhile_not (fun c => c == LF) (rx.filter (fun c => c != CR))
    unfold stored at h
    rw [h] at this
    simp at this
  have hsplit := List.takeWhile_append_dropWhile (fun c => c == LF) (rx.filter (fun c => c != CR))
  unfold stored at h
  rw [h, ← List.append_assoc] at hsplit
  obtain ⟨body, post, hrx, hbody⟩ := filter_split rx _ Y hsplit.symm
  refine ⟨body, post, hrx, ?_, hX⟩
  unfold stored
  rw [hbody, List.dropWhile_append]
  have h1 : List.dropWhile (fun c => c == LF)
      (List.takeWhile (fun c => c == LF) (rx.filter (fun c => c != CR))) = [] := by
    rw [List.dropWhile_eq_nil_iff]
    intro x hx
    have hp := List.mem_takeWhile_imp hx
    simpa using hp
  rw [h1]
  simp only [List.isEmpty_nil, if_true]
  obtain ⟨x, X1, rfl⟩ := List.exists_cons_of_ne_nil hX
  have hx := List.head?_dropWhile_not (fun c => c == LF) (rx.filter (fun c => c != CR))
  rw [h] at hx
  simp only [List.cons_append, List.head?_cons] at hx
  rw [List.dropWhile_cons_of_neg (by simp [hx])]

/-! ## `readReply` on a silent port and on a complete line -/

theorem readReply_zero (lines : Nat) (s : NanoCellular) (hwf : WellFormed s) :
    readReply 0 lines s = .ok (true, { s with _buffer := s._buffer.set 0 NUL }) := by
  have hpos : 0 < s._buffer.length := by rw [hwf]; decide
  simp [readReply, readReplyFrom, readLoop, terminate, poke, hpos, Except.map]

theorem readReply_silent (timeout lines : Nat) (s : NanoCellular) (ht : 1 ≤ timeout)
    (hl : 1 ≤ lines) (hs : s.uart.Silent) :
    ∃ s1, readReply timeout lines s = .ok (false, s1) ∧ s1._buffer = s._buffer ∧
      s1._lastError = s._lastError := by
  obtain ⟨t, rfl⟩ : ∃ t, timeout = t + 1 := ⟨timeout - 1, by omega⟩
  obtain ⟨s1, h1, h2, h3, _⟩ := readLoop_silent lines hl t s hs
  exact ⟨s1, by simp [readReply, readReplyFrom, h1, Except.map], h2, h3⟩

theorem sendAndCheckReply_stale (command reply : List Char) (timeout : Nat) (s : NanoCellular)
    (ht : 1 ≤ timeout) (hquiet : ∀ chunk ∈ s.uart.incoming, chunk = [])
    (hold : (strstr s._buffer 0 reply).isSome = true) :
    ∃ s1, sendAndCheckReply command reply timeout s = .ok (true, s1) ∧
      s1._buffer = s._buffer := by
  have hs : ({ flush s with uart := (flush s).uart.println command } : NanoCellular).uart.Silent := by
    constructor
    · simp [flush, Uart.println]
    · simpa [flush, Uart.println] using hquiet
  obtain ⟨s1, h1, h2, _⟩ := readReply_silent timeout 1 _ ht (le_refl 1) hs
  refine ⟨s1, ?_, by simpa [flush] using h2⟩
  simp only [sendAndCheckReply, sendAndWaitForReply, h1]
  have h2' : s1._buffer = s._buffer := by simpa [flush] using h2
  rw [h2', hold]

theorem blit_snoc (buf : List Char) (i : Nat) (bs : List Char) (c : Char)
    (h : i + bs.length < buf.length) :
    (blit buf i bs).set (i + bs.length) c = blit buf i (bs ++ [c]) := by
  have hlen : (buf.take i ++ bs).length = i + bs.length := by simp; omega
  have hdrop : buf.drop (i + bs.length) = buf[i + bs.length] :: buf.drop (i + bs.length + 1) := by
    rw [List.drop_eq_getElem_cons h]
  unfold blit
  rw [List.set_append_right _ _ (by rw [hlen]), hlen, Nat.sub_self, hdrop]
  simp [Nat.add_assoc]

theorem readReply_line (timeout n : Nat) (s : NanoCellular) (body post : List Char)
    (ht : 1 ≤ timeout) (hwf : WellFormed s)
    (hrx : s.uart.rx = body ++ LF :: post) (hne : stored body ≠ [])
    (hcnt : countedLines body + 1 = n) (hfit : (stored body).length + 1 ≤ 254) :
    readReply timeout n s = .ok (true,
      { s with uart := { s.uart with rx := post },
               _buffer := blit s._buffer 0 (stored body ++ [LF, NUL]) }) := by
  obtain ⟨t, rfl⟩ : ∃ t, timeout = t + 1 := ⟨timeout - 1, by omega⟩
  have hlen : s._buffer.length = 255 := hwf
  have hk : 0 < (stored body).length := List.length_pos.mpr hne
  have hc : (stored body).count LF ≤ (stored body).length := List.count_le_length _ _
  unfold countedLines at hcnt
  have hB : (blit s._buffer 0 (stored body)).length = 255 := by
    rw [blit_length _ _ _ (by omega), hlen]
  have hdrain : drain n s.uart.rx 0 0 s._buffer =
      .ok ⟨post, (stored body).length + 1, n,
        (blit s._buffer 0 (stored body)).set ((stored body).length) LF⟩ := by
    rw [hrx, drain_start n body (LF :: post) s._buffer (by omega) (by omega) (by omega)]
    have h1 : ¬ (LF = CR) := by decide
    have h2 : ¬ (LF = LF ∧ (stored body).length = 0) := by omega
    have hpk : poke (blit s._buffer 0 (stored body)) (stored body).length LF =
        .ok ((blit s._buffer 0 (stored body)).set (stored body).length LF) := by
      simp only [poke, hB]
      rw [if_pos (by omega)]
    rw [drain, if_neg h1, if_neg h2]
    simp only [hpk, if_true]
    rw [Nat.mod_eq_of_lt (by omega : (stored body).length + 1 < 65536),
      Nat.mod_eq_of_lt (by omega : List.count LF (stored body) + 1 < 65536), hcnt]
    simp
  have h254 : ¬ (0 > 254) := by decide
  simp only [readReply, readReplyFrom, readLoop, if_neg h254, hdrain, ge_iff_le, le_refl, if_true]
  have hpk2 : poke ((blit s._buffer 0 (stored body)).set ((stored body).length) LF)
      ((stored body).length + 1) NUL =
      .ok (blit s._buffer 0 (stored body ++ [LF, NUL])) := by
    have e1 := blit_snoc s._buffer 0 (stored body) LF (by omega)
    simp only [Nat.zero_add] at e1
    rw [e1]
    have e2 := blit_snoc s._buffer 0 (stored body ++ [LF]) NUL (by simp; omega)
    simp only [Nat.zero_add, List.length_append, List.length_singleton, List.append_assoc,
      List.singleton_append] at e2
    simp only [poke]
    rw [blit_length _ _ _ (by simp; omega), if_pos (by omega), e2]
  simp only [terminate, hpk2, Except.map]

/-! ## The C library functions -/

theorem findSub_isSome (needle hay : List Char) :
    (findSub needle hay).isSome = true ↔ needle <:+: hay := by
  induction hay with
  | nil =>
    unfold findSub
    by_cases h : needle.isPrefixOf [] = true
    · rw [if_pos h]
      simp only [Option.isSome_some, true_iff]
      exact (List.isPrefixOf_iff_prefix.mp h).isInfix
    · rw [if_neg h]
      simp only [Option.isSome_none, Bool.false_eq_true, false_iff]
      intro hin
      apply h
      rw [List.isPrefixOf_iff_prefix]
      rw [List.infix_nil] at hin
      simp [hin]
  | cons c rest ih =>
    unfold findSub
    by_cases h : needle.isPrefixOf (c :: rest) = true
    · rw [if_pos h]
      simp only [Option.isSome_some, true_iff]
      exact (List.isPrefixOf_iff_prefix.mp h).isInfix
    · rw [if_neg h, Option.isSome_map', ih, List.infix_cons_iff]
      constructor
      · intro hr; exact Or.inr hr
      · rintro (hp | hr)
        · exact absurd (List.isPrefixOf_iff_prefix.mpr hp) h
        · exact hr

theorem strstr_isSome (buf needle : List Char) :
    (strstr buf 0 needle).isSome = true ↔ needle <:+: cstr buf := by
  unfold strstr cstr
  rw [Option.isSome_map', findSub_isSome]

theorem strstr_eq_none (buf needle : List Char) :
    strstr buf 0 needle = none ↔ ¬ needle <:+: cstr buf := by
  rw [← strstr_isSome]
  cases strstr buf 0 needle <;> simp

theorem cstr_split (buf w : List Char) (h : cstr buf = w) :
    (∀ c ∈ w, c ≠ NUL) ∧ ∃ tail, buf = w ++ tail := by
  unfold cstr cstrAt at h
  rw [List.drop_zero] at h
  subst h
  constructor
  · intro c hc
    have := List.mem_takeWhile_imp hc
    simpa using this
  · exact ⟨buf.dropWhile (fun c => c != NUL), (List.takeWhile_append_dropWhile _ _).symm⟩

theorem charAt_append (a b : List Char) (c : Char) : charAt (a ++ c :: b) a.length = c := by
  unfold charAt
  rw [List.getD_append_right _ _ _ _ (le_refl _)]
  simp

theorem takeWhile_stop (p : Char → Bool) (a b : List Char) (c : Char)
    (ha : ∀ x ∈ a, p x = true) (hc : p c = false) : (a ++ c :: b).takeWhile p = a := by
  rw [List.takeWhile_append_of_pos ha, List.takeWhile_cons_of_neg (by simp [hc])]
  simp

/-- A token that is followed by a delimiter: `strtok` returns its offset,
overwrites the delimiter with the terminator and resumes after it. -/
theorem strtok_token (pre ds tok rest delim : List Char) (d : Char)
    (hds : ∀ c ∈ ds, c ≠ NUL ∧ c ∈ delim) (htok : ∀ c ∈ tok, c ≠ NUL ∧ c ∉ delim)
    (hne : tok ≠ []) (hd : d ∈ delim) (hd0 : d ≠ NUL) :
    strtok (pre ++ (ds ++ (tok ++ d :: rest))) pre.length delim =
      ⟨some (pre.length + ds.length), pre ++ (ds ++ (tok ++ NUL :: rest)),
        pre.length + ds.length + tok.length + 1⟩ := by
  obtain ⟨x, tok1, rfl⟩ := List.exists_cons_of_ne_nil hne
  have hx := htok x (by simp)
  have hskip : ((pre ++ (ds ++ (x :: tok1 ++ d :: rest))).drop pre.length).takeWhile
      (fun c => c != NUL && delim.contains c) = ds := by
    rw [List.drop_left]
    exact takeWhile_stop _ ds _ x (fun c hc => by simp [hds c hc]) (by simp [hx.2])
  have hchar : charAt (pre ++ (ds ++ (x :: tok1 ++ d :: rest))) (pre.length + ds.length) = x := by
    have := charAt_append (pre ++ ds) (tok1 ++ d :: rest) x
    simpa using this
  have hlen : ((pre ++ (ds ++ (x :: tok1 ++ d :: rest))).drop (pre.length + ds.length)).takeWhile
      (fun c => c != NUL && !delim.contains c) = x :: tok1 := by
    have e : pre ++ (ds ++ (x :: tok1 ++ d :: rest)) = (pre ++ ds) ++ ((x :: tok1) ++ d :: rest) := by
      simp
    rw [e, List.drop_left' (by simp)]
    exact takeWhile_stop _ (x :: tok1) _ d (fun c hc => by simp [htok c hc]) (by simp [hd])
  have hend : charAt (pre ++ (ds ++ (x :: tok1 ++ d :: rest)))
      (pre.length + ds.length + (x :: tok1).length) = d := by
    have := charAt_append (pre ++ ds ++ (x :: tok1)) rest d
    simpa [Nat.add_assoc] using this
  have hset : (pre ++ (ds ++ (x :: tok1 ++ d :: rest))).set
      (pre.length + ds.length + (x :: tok1).length) NUL =
      pre ++ (ds ++ (x :: tok1 ++ NUL :: rest)) := by
    have e : pre ++ (ds ++ (x :: tok1 ++ d :: rest)) = (pre ++ ds ++ (x :: tok1)) ++ d :: rest := by
      simp
    rw [e, List.set_append_right _ _ (by simp; omega)]
    have : pre.length + ds.length + (x :: tok1).length - (pre ++ ds ++ x :: tok1).length = 0 := by
      simp; omega
    rw [this]
    simp
  unfold strtok
  simp only [hskip, hchar, if_neg hx.1, hlen, hend, if_neg hd0, hset]

/-- Whatever follows, a byte that is neither terminator nor delimiter starts
a token, and the token still starts with that byte after the call. -/
theorem strtok_some (pre ds more delim : List Char) (x : Char)
    (hds : ∀ c ∈ ds, c ≠ NUL ∧ c ∈ delim) (hx0 : x ≠ NUL) (hx : x ∉ delim) :
    (strtok (pre ++ (ds ++ x :: more)) pre.length delim).token = some (pre.length + ds.length) ∧
      charAt (strtok (pre ++ (ds ++ x :: more)) pre.length delim).buf (pre.length + ds.length) = x := by
  have hskip : ((pre ++ (ds ++ x :: more)).drop pre.length).takeWhile
      (fun c => c != NUL && delim.contains c) = ds := by
    rw [List.drop_left]
    exact takeWhile_stop _ ds _ x (fun c hc => by simp [hds c hc]) (by simp [hx])
  have hchar : charAt (pre ++ (ds ++ x :: more)) (pre.length + ds.length) = x := by
    have := charAt_append (pre ++ ds) more x
    simpa using this
  have hlen : 0 < (((pre ++ (ds ++ x :: more)).drop (pre.length + ds.length)).takeWhile
      (fun c => c != NUL && !delim.contains c)).length := by
    have e : pre ++ (ds ++ x :: more) = (pre ++ ds) ++ (x :: more) := by simp
    rw [e, List.drop_left' (by simp), List.takeWhile_cons_of_pos (by simp [hx0, hx])]
    simp
  unfold strtok
  simp only [hskip, hchar, if_neg hx0]
  split
  · exact ⟨rfl, hchar⟩
  · refine ⟨rfl, ?_⟩
    simp only
    unfold charAt at hchar ⊢
    rw [List.getD_eq_getElem?_getD, List.getElem?_set_ne (by omega), ← List.getD_eq_getElem?_getD]
    exact hchar

/-! ## Fields the framer never touches -/

theorem terminate_lastError (s : NanoCellular) (i : Nat) (o : Outcome)
    (h : terminate s i = .ok o) : o.st._lastError = s._lastError := by
  unfold terminate at h
  cases hp : poke s._buffer i NUL with
  | error e => rw [hp] at h; cases h
  | ok b => rw [hp] at h; cases h; rfl

theorem readLoop_lastError (lines : Nat) (t : Nat) :
    ∀ (s : NanoCellular) (i l : Nat) (o : Outcome),
      readLoop lines t s i l = .ok o → o.st._lastError = s._lastError := by
  induction t with
  | zero =>
    intro s i l o h
    rw [readLoop] at h
    exact terminate_lastError s i o h
  | succ t ih =>
    intro s i l o h
    rw [readLoop] at h
    split at h
    · exact terminate_lastError s i o h
    · split at h
      · cases h
      · rename_i f hf
        simp only at h
        split at h
        · have h1 := terminate_lastError _ _ o h
          exact h1
        · split at h
          · cases h; rfl
          · have h1 := ih _ _ _ o h
            exact h1

theorem readReply_lastError (timeout lines : Nat) (s s1 : NanoCellular) (b : Bool)
    (h : readReply timeout lines s = .ok (b, s1)) : s1._lastError = s._lastError := by
  unfold readReply readReplyFrom at h
  cases hr : readLoop lines timeout s 0 0 with
  | error e => rw [hr] at h; cases h
  | ok o =>
    rw [hr] at h
    simp only [Except.map] at h
    cases h
    exact readLoop_lastError lines timeout s 0 0 o hr

theorem sendAndWaitForReply_lastError (command : List Char) (timeout lines : Nat)
    (s s1 : NanoCellular) (b : Bool)
    (h : sendAndWaitForReply command timeout lines s = .ok (b, s1)) :
    s1._lastError = s._lastError := by
  unfold sendAndWaitForReply at h
  have h1 := readReply_lastError timeout lines _ s1 b h
  exact h1

/-! ## Tokenizing the registration reply -/

theorem parseRegistration_second_field (buf field1 rest : List Char) (c : Char)
    (hbuf : cstr buf = field1 ++ ',' :: c :: rest)
    (hf1 : field1 ≠ []) (hnc : ',' ∉ field1) (hc : c ≠ ',') :
    (parseRegistration buf).1 = ⟨castU8 ((c.toNat : Int) - 0x30)⟩ := by
  obtain ⟨hnul, tail, rfl⟩ := cstr_split buf _ hbuf
  have h1 := strtok_token [] [] field1 (c :: rest ++ tail) [','] ','
    (by simp) (fun x hx => ⟨hnul x (by simp [hx]), by
      intro hmem
      simp only [List.mem_singleton] at hmem
      exact hnc (hmem ▸ hx)⟩) hf1 (by simp) (by decide)
  simp only [List.nil_append, List.length_nil, Nat.zero_add] at h1
  have e : field1 ++ ',' :: c :: rest ++ tail = field1 ++ ',' :: (c :: rest ++ tail) := by simp
  have h2 := strtok_some (field1 ++ [NUL]) [] (rest ++ tail) [','] c (by simp)
    (hnul c (by simp)) (by simpa using hc)
  simp only [List.nil_append, List.length_nil, Nat.add_zero, List.length_append,
    List.length_singleton, List.append_assoc, List.singleton_append] at h2
  unfold parseRegistration
  simp only [e, h1]
  obtain ⟨h2a, h2b⟩ := h2
  simp only [List.cons_append] at h2a h2b ⊢
  rw [h2a]
  simp only [h2b]

/-! # The claims -/

theorem sample_wellFormed (rx : List Char) (incoming : List (List Char)) (old : List Char)
    (h : old.length ≤ 255) : WellFormed (sample rx incoming old) := by
  simp only [WellFormed, sample, BUFFER_SIZE, List.length_append, List.length_replicate]
  omega

/-- C1, a defect of the code. On a port that never delivers a byte and with at
least one line expected, `readReply` returns `false` and leaves the buffer alone
for every `timeout ≥ 1`; for `timeout = 0` the loop `while (timeout--)` is never
entered, the code falls through to `_buffer[0] = 0; return true;` and reports
success. -/
theorem readReply_silent_port (timeout lines : Nat) (s : NanoCellular)
    (hl : 1 ≤ lines) (hwf : WellFormed s) (hs : s.uart.Silent) :
    (1 ≤ timeout →
      ∃ s1, readReply timeout lines s = .ok (false, s1) ∧ s1._buffer = s._buffer) ∧
    (timeout = 0 →
      readReply timeout lines s = .ok (true, { s with _buffer := s._buffer.set 0 NUL })) := by
  constructor
  · intro ht
    obtain ⟨s1, h1, h2, _⟩ := readReply_silent timeout lines s ht hl hs
    exact ⟨s1, h1, h2⟩
  · intro ht
    subst ht
    exact readReply_zero lines s hwf

/-- C1 at the failing input: timeout 0, one line expected, nothing ever received. -/
theorem readReply_silent_port_witness :
    readReply 0 1 (sample [] [] []) =
      .ok (true, { sample [] [] [] with _buffer := (sample [] [] [])._buffer.set 0 NUL }) :=
  (readReply_silent_port 0 1 (sample [] [] []) (by decide) (sample_wellFormed _ _ _ (by decide))
    (by decide)).2 rfl

/-- C2, amended. For `timeout ≥ 1`, `n ≥ 1` and readable bytes with at least `n`
counted line feeds, the readable bytes split as `body ++ LF :: post` where that
line feed is the `n`-th counted one; when the bytes stored up to and including
it number at most 254, `readReply` returns `true`, has consumed exactly
`body ++ [LF]`, leaves `post` unread and the schedule of later bytes untouched,
and the buffer holds the stored bytes followed by the terminator. -/
theorem readReply_stops_at_line_count (timeout n : Nat) (s : NanoCellular)
    (ht : 1 ≤ timeout) (hn : 1 ≤ n) (hwf : WellFormed s)
    (hcount : n ≤ countedLines s.uart.rx) :
    ∃ body post, s.uart.rx = body ++ LF :: post ∧ stored body ≠ [] ∧
      countedLines body + 1 = n ∧
      ((stored body).length + 1 ≤ 254 →
        readReply timeout n s = .ok (true,
          { s with
            uart := { s.uart with rx := post },
            _buffer := blit s._buffer 0 (stored body ++ [LF, NUL]) })) := by
  obtain ⟨X, Y, hXY, hX⟩ := count_split LF (stored s.uart.rx) n hn hcount
  obtain ⟨body, post, hrx, hbody, hne⟩ := stored_split s.uart.rx X Y hXY
  refine ⟨body, post, hrx, by rw [hbody]; exact hne, by unfold countedLines; rw [hbody]; exact hX, ?_⟩
  intro hfit
  exact readReply_line timeout n s body post ht hwf hrx (by rw [hbody]; exact hne)
    (by unfold countedLines; rw [hbody]; exact hX) hfit

/-- C2, amended, on the readable bytes `"\r\nAT\r\nOK\r\n+URC"` with two lines
expected. -/
theorem readReply_stops_at_line_count_witness :
    ∃ body post, threeLines.uart.rx = body ++ LF :: post ∧ stored body ≠ [] ∧
      countedLines body + 1 = 2 ∧
      ((stored body).length + 1 ≤ 254 →
        readReply 1000 2 threeLines = .ok (true,
          { threeLines with
            uart := { threeLines.uart with rx := post },
            _buffer := blit threeLines._buffer 0 (stored body ++ [LF, NUL]) })) :=
  readReply_stops_at_line_count 1000 2 threeLines (by decide) (by decide)
    (sample_wellFormed _ _ _ (by decide)) (by decide)

/-- C2 as stated fails on a line of 254 letters and its line feed, readable at
once with one line expected: the 255 bytes fill `_buffer[0..254]` and the
terminator is stored at `_buffer[255]`, outside the array, so the call does not
come back with a success inside defined behaviour. -/
theorem readReply_overlong_line_faults :
    WellFormed overlongLine ∧ 1 ≤ countedLines overlongLine.uart.rx ∧
      readReply 1000 1 overlongLine = .error Fault.outOfBounds := by
  decide!

/-- C3, a defect of the code. The bound `index > 254` is tested once per outer
iteration only, not inside the loop that stores the readable bytes. With 255
readable letters and no line feed one iteration stores 255 content bytes and
leaves `index = 255`; the next iteration breaks on `index > 254` and stores the
terminator at `_buffer[255]`, outside the array. With 300 readable letters the
inner loop itself stores outside the array. -/
theorem readReply_overruns_buffer :
    WellFormed flood255 ∧
      (readReplyFrom 1 1 flood255).map (fun o => (o.ok, o.index)) = .ok (false, 255) ∧
      readReply 2 1 flood255 = .error Fault.outOfBounds ∧
      readReply 1000 1 flood300 = .error Fault.outOfBounds := by
  decide!

/-- C4, a defect of the code. When no byte arrives before the timeout
(`timeout ≥ 1`), `readReply` returns `false` without storing a terminator, and
`sendAndCheckReply` discards that status and searches the buffer as the previous
transaction left it: if the old content holds `reply`, it returns `true`. -/
theorem sendAndCheckReply_reads_stale_buffer (command reply : List Char) (timeout : Nat)
    (s : NanoCellular) (ht : 1 ≤ timeout)
    (hquiet : ∀ chunk ∈ s.uart.incoming, chunk = [])
    (hold : reply <:+: cstr s._buffer) :
    ∃ s1, sendAndCheckReply command reply timeout s = .ok (true, s1) ∧
      s1._buffer = s._buffer :=
  sendAndCheckReply_stale command reply timeout s ht hquiet ((strstr_isSome _ _).mpr hold)

/-- C4 at the failing input: the buffer still holds `"OK\n"`, the port is
silent, and `sendAndCheckReply("AT", "OK", 1000)` returns `true`. -/
theorem sendAndCheckReply_reads_stale_buffer_witness :
    ∃ s1, sendAndCheckReply _AT _OK 1000 staleOK = .ok (true, s1) ∧
      s1._buffer = staleOK._buffer :=
  sendAndCheckReply_reads_stale_buffer _AT _OK 1000 staleOK (by decide) (by decide)
    (by decide!)

/-- C5, amended. When the transaction of `sendAndCheckReply(command, "OK",
timeout)` leaves a reply that contains `"CME ERROR: 50"` and no `"OK"`, the call
returns `false` and `_lastError` keeps the value it had before the call:
`sendAndCheckReply` never calls `checkResult`. -/
theorem sendAndCheckReply_keeps_lastError (command : List Char) (timeout : Nat)
    (s s1 : NanoCellular) (b : Bool)
    (htx : sendAndWaitForReply command timeout 1 s = .ok (b, s1))
    (_hcme : "CME ERROR: 50".toList <:+: cstr s1._buffer)
    (hno : ¬ _OK <:+: cstr s1._buffer) :
    sendAndCheckReply command _OK timeout s = .ok (false, s1) ∧
      s1._lastError = s._lastError := by
  refine ⟨?_, sendAndWaitForReply_lastError command timeout 1 s s1 b htx⟩
  simp only [sendAndCheckReply, htx, (strstr_eq_none _ _).mpr hno, Option.isSome_none]

/-- C5, amended, for a module that answers `+CME ERROR: 50` within a millisecond. -/
theorem sendAndCheckReply_keeps_lastError_witness :
    sendAndCheckReply "AT+CFUN=1".toList _OK 1000 cmeReply =
        .ok (false, stateAfter (sendAndWaitForReply "AT+CFUN=1".toList 1000 1 cmeReply) cmeReply) ∧
      (stateAfter (sendAndWaitForReply "AT+CFUN=1".toList 1000 1 cmeReply) cmeReply)._lastError =
        cmeReply._lastError :=
  sendAndCheckReply_keeps_lastError "AT+CFUN=1".toList 1000 cmeReply
    (stateAfter (sendAndWaitForReply "AT+CFUN=1".toList 1000 1 cmeReply) cmeReply) true
    (by decide!) (by decide!) (by decide!)

/-- C5 as stated fails: the module answers `+CME ERROR: 50`, the call returns
`false` with that line in the buffer, and `_lastError` is still 3, not 50. -/
theorem sendAndCheckReply_cme_not_recorded :
    (sendAndCheckReply "AT+CFUN=1".toList _OK 1000 cmeReply).map
        (fun r => (r.1, cstr r.2._buffer, r.2._lastError)) =
      .ok (false, "+CME ERROR: 50\n".toList, 3) := by
  decide!

/-- C6, a defect of the code. On the buffer `"+CME ERROR: 50\n"` the call
`strtok(_buffer, "CME ERROR: ")` treats its second argument as a set of
delimiter bytes and returns the token `"+"`, `atoi` reads 0 from it, and
`checkResult` returns `false` with `_lastError = 0` instead of 50. -/
theorem checkResult_misreads_cme_code :
    cstr cmeBuffer._buffer = "+CME ERROR: 50\n".toList ∧
      (checkResult cmeBuffer).map (fun r => (r.1, r.2._lastError)) = .ok (false, 0) := by
  decide!

/-- An array that holds a terminator holds its C string and the terminator
after it: the scan of `strstr` ends inside the array. -/
theorem cstr_terminated (buf : List Char) (h : NUL ∈ buf) :
    ∃ tail, buf = cstr buf ++ NUL :: tail := by
  have hsplit := (List.takeWhile_append_dropWhile (fun c => c != NUL) buf).symm
  cases hd : buf.dropWhile (fun c => c != NUL) with
  | nil =>
    exfalso
    rw [hd, List.append_nil] at hsplit
    rw [hsplit] at h
    have := List.mem_takeWhile_imp h
    simp at this
  | cons x r =>
    have hx := List.head?_dropWhile_not (fun c => c != NUL) buf
    rw [hd] at hx
    simp only [List.head?_cons, bne_eq_false_iff_eq] at hx
    refine ⟨r, ?_⟩
    rw [hd, hx] at hsplit
    simpa [cstr, cstrAt] using hsplit

/-- C7. On a reply buffer that holds a terminator (so that the string searched
by `strstr` and its terminator lie inside `_buffer`), `checkResult` returns
`true` exactly when the reply buffer contains `"OK"`, and then `_lastError` is 0
and nothing else changes; when the buffer contains neither `"OK"` nor
`"CME ERROR: "` it returns `false` and sets `_lastError` to -1. -/
theorem checkResult_classifies (s : NanoCellular) (hterm : NUL ∈ s._buffer) :
    (∃ tail, s._buffer = cstr s._buffer ++ NUL :: tail) ∧
    ((∃ s1, checkResult s = .ok (true, s1)) ↔ _OK <:+: cstr s._buffer) ∧
    (_OK <:+: cstr s._buffer → checkResult s = .ok (true, { s with _lastError := 0 })) ∧
    (¬ _OK <:+: cstr s._buffer → ¬ _CME_ERROR <:+: cstr s._buffer →
      checkResult s = .ok (false, { s with _lastError := -1 })) := by
  have hyes : _OK <:+: cstr s._buffer → checkResult s = .ok (true, { s with _lastError := 0 }) := by
    intro h
    have h1 := (strstr_isSome s._buffer _OK).mpr h
    obtain ⟨k, hk⟩ := Option.isSome_iff_exists.mp h1
    simp only [checkResult, hk]
  refine ⟨cstr_terminated s._buffer hterm, ⟨?_, fun h => ⟨_, hyes h⟩⟩, hyes, ?_⟩
  · rintro ⟨s1, h1⟩
    by_contra hno
    have h2 := (strstr_eq_none s._buffer _OK).mpr hno
    simp only [checkResult, h2] at h1
    split at h1
    · cases h1
    · split at h1 <;> cases h1
  · intro hno hcme
    simp only [checkResult, (strstr_eq_none _ _).mpr hno, (strstr_eq_none _ _).mpr hcme]

/-- C7 on the buffer `"OK\n"` and on the buffer `"+CREG"`, both zero-filled up
to 255 bytes. -/
theorem checkResult_classifies_witness :
    checkResult staleOK = .ok (true, { staleOK with _lastError := 0 }) ∧
      checkResult (sample [] [] "+CREG".toList) =
        .ok (false, { sample [] [] "+CREG".toList with _lastError := -1 }) :=
  ⟨(checkResult_classifies staleOK (by decide!)).2.2.1 (by decide!),
    (checkResult_classifies (sample [] [] "+CREG".toList) (by decide!)).2.2.2 (by decide!)
      (by decide!)⟩

/-- The byte that starts the second comma-separated field decides the result of
`getNetworkRegistration`: the state returned is that byte minus `'0'`, converted
to the underlying `uint8_t`. -/
theorem getNetworkRegistration_second_field (s s1 : NanoCellular) (field1 rest : List Char)
    (c : Char)
    (htx : sendAndWaitForReply "AT+CEREG?".toList 1000 3 s = .ok (true, s1))
    (hreply : cstr s1._buffer = field1 ++ ',' :: c :: rest)
    (hf1 : field1 ≠ []) (hnc : ',' ∉ field1) (hc : c ≠ ',') :
    ∃ s2, getNetworkRegistration s = .ok (⟨castU8 ((c.toNat : Int) - 0x30)⟩, s2) := by
  have h := parseRegistration_second_field s1._buffer field1 rest c hreply hf1 hnc hc
  refine ⟨{ s1 with _buffer := (parseRegistration s1._buffer).2 }, ?_⟩
  simp only [getNetworkRegistration, htx, h]

/-- C8. When the `AT+CEREG?` transaction succeeds and the reply is a first
field, a comma, and a second field that begins with the digit `d` in `0..5`,
`getNetworkRegistration` returns the `d`-th of `NotRegistered, Registered,
Searching, Denied, Unknown, Roaming`. -/
theorem getNetworkRegistration_maps_digits (s s1 : NanoCellular) (field1 rest : List Char)
    (d : Nat)
    (htx : sendAndWaitForReply "AT+CEREG?".toList 1000 3 s = .ok (true, s1))
    (hreply : cstr s1._buffer = field1 ++ ',' :: Char.ofNat (48 + d) :: rest)
    (hf1 : field1 ≠ []) (hnc : ',' ∉ field1) (hd : d ≤ 5) :
    ∃ st s2, getNetworkRegistration s = .ok (st, s2) ∧
      [NetworkRegistrationState.NotRegistered, NetworkRegistrationState.Registered,
        NetworkRegistrationState.Searching, NetworkRegistrationState.Denied,
        NetworkRegistrationState.Unknown, NetworkRegistrationState.Roaming][d]? = some st := by
  have hc : Char.ofNat (48 + d) ≠ ',' := by
    interval_cases d <;> decide
  obtain ⟨s2, h2⟩ := getNetworkRegistration_second_field s s1 field1 rest _ htx hreply hf1 hnc hc
  refine ⟨_, s2, h2, ?_⟩
  interval_cases d <;> decide

/-- C8 for a module that answers `+CEREG: 0,5` and `OK`: the result is `Roaming`. -/
theorem getNetworkRegistration_maps_digits_witness :
    ∃ st s2, getNetworkRegistration roamingReply = .ok (st, s2) ∧
      [NetworkRegistrationState.NotRegistered, NetworkRegistrationState.Registered,
        NetworkRegistrationState.Searching, NetworkRegistrationState.Denied,
        NetworkRegistrationState.Unknown, NetworkRegistrationState.Roaming][5]? = some st :=
  getNetworkRegistration_maps_digits roamingReply
    (stateAfter (sendAndWaitForReply "AT+CEREG?".toList 1000 3 roamingReply) roamingReply)
    "+CEREG: 0".toList "\n\nOK\n".toList 5 (by decide!) (by decide!) (by decide) (by decide)
    (by decide)

/-- C9, amended. When the `AT+CEREG?` transaction succeeds and the second
comma-separated field begins with a byte `c` outside `'0'..'5'`,
`getNetworkRegistration` does not reject it: it returns the state whose
underlying value is `(c - '0') mod 256`, which is none of the six enumerators. -/
theorem getNetworkRegistration_passes_other_bytes (s s1 : NanoCellular)
    (field1 rest : List Char) (c : Char)
    (htx : sendAndWaitForReply "AT+CEREG?".toList 1000 3 s = .ok (true, s1))
    (hreply : cstr s1._buffer = field1 ++ ',' :: c :: rest)
    (hf1 : field1 ≠ []) (hnc : ',' ∉ field1) (hc : c ≠ ',')
    (hbyte : c.toNat < 256) (hout : c.toNat < 48 ∨ 53 < c.toNat) :
    ∃ st s2, getNetworkRegistration s = .ok (st, s2) ∧
      st.raw = (c.toNat + 208) % 256 ∧ st ∉ NetworkRegistrationState.enumerators := by
  obtain ⟨s2, h2⟩ := getNetworkRegistration_second_field s s1 field1 rest c htx hreply hf1 hnc hc
  have hraw : castU8 ((c.toNat : Int) - 0x30) = (c.toNat + 208) % 256 := by
    unfold castU8
    omega
  refine ⟨_, s2, h2, hraw, ?_⟩
  intro hmem
  simp only [NetworkRegistrationState.enumerators, NetworkRegistrationState.NotRegistered,
    NetworkRegistrationState.Registered, NetworkRegistrationState.Searching,
    NetworkRegistrationState.Denied, NetworkRegistrationState.Unknown,
    NetworkRegistrationState.Roaming, List.mem_cons, NetworkRegistrationState.mk.injEq,
    List.mem_singleton, List.not_mem_nil, or_false, hraw] at hmem
  omega

/-- C9, amended, for a module that answers `+CEREG: 0,7` and `OK`. -/
theorem getNetworkRegistration_passes_other_bytes_witness :
    ∃ st s2, getNetworkRegistration sevenReply = .ok (st, s2) ∧
      st.raw = ('7'.toNat + 208) % 256 ∧ st ∉ NetworkRegistrationState.enumerators :=
  getNetworkRegistration_passes_other_bytes sevenReply
    (stateAfter (sendAndWaitForReply "AT+CEREG?".toList 1000 3 sevenReply) sevenReply)
    "+CEREG: 0".toList "\n\nOK\n".toList '7' (by decide!) (by decide!) (by decide) (by decide)
    (by decide) (by decide) (by decide)

/-- C9 as stated fails: for the reply `+CEREG: 0,7` the call returns the state
with underlying value 7, which is none of the six enumerators. -/
theorem getNetworkRegistration_digit_seven :
    (getNetworkRegistration sevenReply).map (fun r => r.1) = .ok ⟨7⟩ ∧
      (⟨7⟩ : NetworkRegistrationState) ∉ NetworkRegistrationState.enumerators := by
  decide!

/-- C10, a defect of the code. After the first field the loop of `getRSSI` calls
`strtok` six more times; the documented reply has six fields, so the sixth call
returns a null pointer and `strtol` is handed that null pointer. This happens on
the buffer the claim names and in the whole call when the module sends the
documented lines; the value 47 is never returned. -/
theorem getRSSI_documented_reply_faults :
    cstr cesqBuffer = "+CESQ: 99,99,255,255,16,47\nOK".toList ∧
      parseRSSI cesqBuffer = .error Fault.nullPointer ∧
      (sendAndWaitForReply "AT+CESQ".toList 1000 3 cesqReply).map
          (fun r => (r.1, cstr r.2._buffer)) =
        .ok (true, "+CESQ: 99,99,255,255,16,47\n\nOK\n".toList) ∧
      getRSSI cesqReply = .error Fault.nullPointer := by
  decide!

/-! ## What reading from the port leaves alone -/

theorem Untouched.refl (s : NanoCellular) : Untouched s s := by
  simp [Untouched]

theorem Untouched.trans {a b c : NanoCellular} (h1 : Untouched a b) (h2 : Untouched b c) :
    Untouched a c := by
  unfold Untouched at *
  obtain ⟨a1, a2, a3, a4, a5, a6, a7, a8, a9, a10, a11, a12⟩ := h1
  obtain ⟨b1, b2, b3, b4, b5, b6, b7, b8, b9, b10, b11, b12⟩ := h2
  exact ⟨b1.trans a1, b2.trans a2, b3.trans a3, b4.trans a4, b5.trans a5, b6.trans a6,
    b7.trans a7, b8.trans a8, b9.trans a9, b10.trans a10, b11.trans a11, b12.trans a12⟩

theorem Uart.wait_tx (ms : Nat) (u : Uart) : (u.wait ms).tx = u.tx := by
  induction ms generalizing u with
  | zero => rfl
  | succ n ih =>
    rw [Uart.wait, ih]
    unfold Uart.tick
    split <;> rfl

theorem Untouched.delay (ms : Nat) (s : NanoCellular) : Untouched s (delay ms s) := by
  simp [Untouched, Nano.delay, Uart.wait_tx]

theorem Untouched.callWatchdog (s : NanoCellular) : Untouched s (callWatchdog s) := by
  simp [Untouched, Nano.callWatchdog]

theorem Untouched.flush (s : NanoCellular) : Untouched s (flush s) := by
  simp [Untouched, Nano.flush]

theorem poke_length (buf buf1 : List Char) (i : Nat) (c : Char) (h : poke buf i c = .ok buf1) :
    buf1.length = buf.length := by
  unfold poke at h
  split at h
  · cases h; simp
  · cases h

theorem drain_length (lines : Nat) (rx : List Char) :
    ∀ (i l : Nat) (buf : List Char) (f : Frame), drain lines rx i l buf = .ok f →
      f.buf.length = buf.length := by
  induction rx with
  | nil => intro i l buf f h; simp only [drain] at h; cases h; rfl
  | cons c rest ih =>
    intro i l buf f h
    rw [drain] at h
    split at h
    · exact ih _ _ _ _ h
    · split at h
      · exact ih _ _ _ _ h
      · split at h
        · cases h
        · rename_i buf1 hp
          simp only at h
          generalize (if c = LF then (l + 1) % 65536 else l) = found at h
          split at h
          · cases h; exact poke_length _ _ _ _ hp
          · rw [ih _ _ _ _ h]; exact poke_length _ _ _ _ hp

theorem terminate_untouched (s : NanoCellular) (i : Nat) (o : Outcome)
    (h : terminate s i = .ok o) : Untouched s o.st := by
  unfold terminate at h
  cases hp : poke s._buffer i NUL with
  | error e => rw [hp] at h; cases h
  | ok b =>
    rw [hp] at h; cases h
    simp [Untouched, poke_length _ _ _ _ hp]

theorem readLoop_untouched (lines : Nat) (t : Nat) :
    ∀ (s : NanoCellular) (i l : Nat) (o : Outcome),
      readLoop lines t s i l = .ok o → Untouched s o.st := by
  induction t with
  | zero =>
    intro s i l o h
    rw [readLoop] at h
    exact terminate_untouched s i o h
  | succ t ih =>
    intro s i l o h
    rw [readLoop] at h
    split at h
    · exact terminate_untouched s i o h
    · split at h
      · cases h
      · rename_i f hf
        have hlen := drain_length _ _ _ _ _ _ hf
        have hs1 : Untouched s { s with uart := { s.uart with rx := f.rx }, _buffer := f.buf } := by
          simp [Untouched, hlen]
        simp only at h
        split at h
        · exact hs1.trans (terminate_untouched _ _ o h)
        · split at h
          · cases h; exact hs1
          · exact (hs1.trans ((Untouched.callWatchdog _).trans (Untouched.delay 1 _))).trans
              (ih _ _ _ o h)

theorem readReply_untouched (timeout lines : Nat) (s s1 : NanoCellular) (b : Bool)
    (h : readReply timeout lines s = .ok (b, s1)) : Untouched s s1 := by
  unfold readReply readReplyFrom at h
  cases hr : readLoop lines timeout s 0 0 with
  | error e => rw [hr] at h; cases h
  | ok o =>
    rw [hr] at h
    simp only [Except.map] at h
    cases h
    exact readLoop_untouched lines timeout s 0 0 o hr

/-! ## The string of a token -/

theorem cstr_split_tail (buf w : List Char) (h : cstr buf = w) :
    (∀ c ∈ w, c ≠ NUL) ∧ ∃ tail, buf = w ++ tail ∧ (tail = [] ∨ ∃ r, tail = NUL :: r) := by
  unfold cstr cstrAt at h
  rw [List.drop_zero] at h
  subst h
  constructor
  · intro c hc
    have := List.mem_takeWhile_imp hc
    simpa using this
  · refine ⟨buf.dropWhile (fun c => c != NUL), (List.takeWhile_append_dropWhile _ _).symm, ?_⟩
    cases hd : buf.dropWhile (fun c => c != NUL) with
    | nil => exact Or.inl rfl
    | cons x r =>
      right
      have hx := List.head?_dropWhile_not (fun c => c != NUL) buf
      rw [hd] at hx
      simp only [List.head?_cons, bne_eq_false_iff_eq] at hx
      exact ⟨r, by rw [hx]⟩

/-- The string of the token `strtok` returns: the bytes from the first byte that
is neither terminator nor delimiter up to the next terminator or delimiter. -/
theorem strtok_cstr (pre ds more delim : List Char) (x : Char)
    (hds : ∀ c ∈ ds, c ≠ NUL ∧ c ∈ delim) (hx0 : x ≠ NUL) (hx : x ∉ delim) :
    (strtok (pre ++ (ds ++ x :: more)) pre.length delim).token = some (pre.length + ds.length) ∧
      cstrAt (strtok (pre ++ (ds ++ x :: more)) pre.length delim).buf (pre.length + ds.length) =
        (x :: more).takeWhile (fun c => c != NUL && !delim.contains c) := by
  have hskip : ((pre ++ (ds ++ x :: more)).drop pre.length).takeWhile
      (fun c => c != NUL && delim.contains c) = ds := by
    rw [List.drop_left]
    exact takeWhile_stop _ ds _ x (fun c hc => by simp [hds c hc]) (by simp [hx])
  have hchar : charAt (pre ++ (ds ++ x :: more)) (pre.length + ds.length) = x := by
    have := charAt_append (pre ++ ds) more x
    simpa using this
  have e : pre ++ (ds ++ x :: more) = (pre ++ ds) ++ (x :: more) := by simp
  have hdrop : (pre ++ (ds ++ x :: more)).drop (pre.length + ds.length) = x :: more := by
    rw [e, List.drop_left' (by simp)]
  have hsplit := List.takeWhile_append_dropWhile (fun c => c != NUL && !delim.contains c)
    (x :: more)
  have htk : ∀ c ∈ (x :: more).takeWhile (fun c => c != NUL && !delim.contains c),
      (c != NUL) = true := by
    intro c hc
    have := List.mem_takeWhile_imp hc
    simp only [Bool.and_eq_true] at this
    exact this.1
  unfold strtok
  simp only [hskip, hchar, if_neg hx0, hdrop]
  generalize htkd : (x :: more).takeWhile (fun c => c != NUL && !delim.contains c) = tk at *
  cases hrem : (x :: more).dropWhile (fun c => c != NUL && !delim.contains c) with
  | nil =>
    rw [hrem, List.append_nil] at hsplit
    have hout : charAt (pre ++ (ds ++ x :: more)) (pre.length + ds.length + tk.length) = NUL := by
      unfold charAt
      rw [List.getD_eq_default]
      rw [e, ← hsplit]
      simp
      omega
    rw [if_pos hout]
    refine ⟨rfl, ?_⟩
    rw [cstrAt, hdrop, ← hsplit]
    exact List.takeWhile_eq_self_iff.mpr htk
  | cons r rs =>
    rw [hrem] at hsplit
    have hbuf : pre ++ (ds ++ x :: more) = (pre ++ ds ++ tk) ++ r :: rs := by
      rw [e, ← hsplit]; simp
    have hr : charAt (pre ++ (ds ++ x :: more)) (pre.length + ds.length + tk.length) = r := by
      rw [hbuf]
      have := charAt_append (pre ++ ds ++ tk) rs r
      simpa [Nat.add_assoc] using this
    rw [hr]
    by_cases hr0 : r = NUL
    · rw [if_pos hr0]
      refine ⟨rfl, ?_⟩
      rw [cstrAt, hdrop, ← hsplit]
      exact takeWhile_stop _ tk rs r htk (by simp [hr0])
    · rw [if_neg hr0]
      refine ⟨rfl, ?_⟩
      simp only
      have hset : (pre ++ (ds ++ x :: more)).set (pre.length + ds.length + tk.length) NUL =
          (pre ++ ds) ++ (tk ++ NUL :: rs) := by
        rw [hbuf, List.set_append_right _ _ (by simp; omega)]
        have : pre.length + ds.length + tk.length - (pre ++ ds ++ tk).length = 0 := by
          simp; omega
        rw [this]
        simp
      rw [hset]
      simp only [cstrAt]
      rw [List.drop_left' (by simp)]
      exact takeWhile_stop _ tk rs NUL htk (by simp)

/-! ## Decimal numerals -/

theorem digitsValue_fold (ds : List Char) :
    ∀ acc : Nat, ds.foldl (fun acc d => 10 * acc + (d.toNat - 48)) acc =
      acc * 10 ^ ds.length + Nat.ofDigits 10 (ds.map (fun c => c.toNat - 48)).reverse := by
  induction ds with
  | nil => intro acc; simp
  | cons c ds ih =>
    intro acc
    rw [List.foldl_cons, ih]
    simp only [List.map_cons, List.reverse_cons, Nat.ofDigits_append, Nat.ofDigits_singleton,
      List.length_reverse, List.length_map, List.length_cons]
    ring

theorem digitsValue_ofDigits (ds : List Char) :
    digitsValue ds = Nat.ofDigits 10 (ds.map (fun c => c.toNat - 48)).reverse := by
  unfold digitsValue
  rw [digitsValue_fold]
  simp

theorem strtolStr_digits (ds after : List Char) (m : Nat) (hne : ds ≠ [])
    (hdig : ∀ c ∈ ds, isdigit c = true)
    (hval : Nat.ofDigits 10 (ds.map (fun c => c.toNat - 48)).reverse = m)
    (hafter : ∀ c, after.head? = some c → isdigit c = false) (hm : m ≤ 2147483647) :
    strtolStr (ds ++ after) = m := by
  obtain ⟨x, ds1, rfl⟩ := List.exists_cons_of_ne_nil hne
  have hx := hdig x (by simp)
  have hxr : 48 ≤ x.toNat ∧ x.toNat ≤ 57 := by simpa [isdigit] using hx
  have hsp : isspace x = false := by
    simp only [isspace, Bool.or_eq_false_iff, decide_eq_false_iff_not, Bool.and_eq_false_imp,
      decide_eq_true_eq]
    omega
  have hminus : x ≠ '-' := by
    intro h; rw [h] at hxr; revert hxr; decide
  have hplus : x ≠ '+' := by
    intro h; rw [h] at hxr; revert hxr; decide
  have htake : (x :: ds1 ++ after).takeWhile isdigit = x :: ds1 := by
    rw [List.takeWhile_append_of_pos hdig]
    cases hafter' : after with
    | nil => simp
    | cons a r =>
      have := hafter a (by simp [hafter'])
      rw [List.takeWhile_cons_of_neg (by simp [this])]
      simp
  unfold strtolStr
  have hdrop : (x :: ds1 ++ after).dropWhile isspace = x :: (ds1 ++ after) := by
    rw [List.cons_append, List.dropWhile_cons_of_neg (by simp [hsp])]
  simp only [hdrop]
  split
  · rename_i rest' heq
    simp only [List.cons.injEq] at heq
    exact absurd heq.1 hminus
  · rename_i rest' heq
    simp only [List.cons.injEq] at heq
    exact absurd heq.1 hplus
  · have h1 : (x :: (ds1 ++ after)).takeWhile isdigit = x :: ds1 := by
      simpa using htake
    rw [h1, digitsValue_ofDigits, hval]
    unfold clampLong
    have : ¬ ((m : Int) > 2147483647) := by omega
    have h2 : ¬ ((m : Int) < -2147483648) := by omega
    simp [this, h2]

/-! ## Tokenizing the battery reply -/

theorem parseVoltage_second_token (buf field1 ds rest : List Char) (m : Nat)
    (hbuf : cstr buf = field1 ++ ' ' :: (ds ++ rest))
    (hf1 : field1 ≠ []) (hsp : ' ' ∉ field1) (hne : ds ≠ [])
    (hdig : ∀ c ∈ ds, isdigit c = true)
    (hval : Nat.ofDigits 10 (ds.map (fun c => c.toNat - 48)).reverse = m)
    (hrest : ∀ c, rest.head? = some c → isdigit c = false) (hm : m ≤ 65535) :
    ∃ buf1, parseVoltage buf = .ok ((m : ℚ) / 1000, buf1) := by
  obtain ⟨hnul, tail, rfl, htail⟩ := cstr_split_tail buf _ hbuf
  obtain ⟨x, ds1, rfl⟩ := List.exists_cons_of_ne_nil hne
  have hx := hdig x (by simp)
  have hxr : 48 ≤ x.toNat ∧ x.toNat ≤ 57 := by simpa [isdigit] using hx
  have hxsp : x ≠ ' ' := by
    intro h; rw [h] at hxr; revert hxr; decide
  have h1 := strtok_token [] [] field1 (x :: ds1 ++ rest ++ tail) [' '] ' '
    (by simp) (fun c hc => ⟨hnul c (by simp [hc]), by
      intro hmem
      simp only [List.mem_singleton] at hmem
      exact hsp (hmem ▸ hc)⟩) hf1 (by simp) (by decide)
  simp only [List.nil_append, List.length_nil, Nat.zero_add] at h1
  have e : field1 ++ ' ' :: (x :: ds1 ++ rest) ++ tail =
      field1 ++ ' ' :: (x :: ds1 ++ rest ++ tail) := by simp
  have h2 := strtok_cstr (field1 ++ [NUL]) [] (ds1 ++ rest ++ tail) [' '] x (by simp)
    (hnul x (by simp)) (by simpa using hxsp)
  simp only [List.nil_append, List.length_nil, Nat.add_zero, List.length_append,
    List.length_singleton, List.append_assoc, List.singleton_append] at h2
  obtain ⟨h2a, h2b⟩ := h2
  -- the token string is the numeral followed by something that is no digit
  have hq : ∀ c ∈ x :: ds1, (c != NUL && !([' '] : List Char).contains c) = true := by
    intro c hc
    have hc0 := hnul c (by simp only [List.mem_append, List.mem_cons]; right; right; left
                           simpa using hc)
    have hcd := hdig c hc
    have hcr : 48 ≤ c.toNat ∧ c.toNat ≤ 57 := by simpa [isdigit] using hcd
    have hcs : c ≠ ' ' := by
      intro h; rw [h] at hcr; revert hcr; decide
    simp [hc0, hcs]
  have htokstr : (x :: (ds1 ++ (rest ++ tail))).takeWhile
      (fun c => c != NUL && !([' '] : List Char).contains c) =
      (x :: ds1) ++ (rest ++ tail).takeWhile
        (fun c => c != NUL && !([' '] : List Char).contains c) := by
    have : x :: (ds1 ++ (rest ++ tail)) = (x :: ds1) ++ (rest ++ tail) := by simp
    rw [this, List.takeWhile_append_of_pos hq]
  have hafter : ∀ c, ((rest ++ tail).takeWhile
      (fun c => c != NUL && !([' '] : List Char).contains c)).head? = some c →
      isdigit c = false := by
    intro c hc
    cases hr : rest with
    | nil =>
      rw [hr, List.nil_append] at hc
      rcases htail with rfl | ⟨r, rfl⟩
      · simp at hc
      · simp at hc
    | cons a r =>
      rw [hr, List.cons_append, List.takeWhile_cons] at hc
      split at hc
      · simp only [List.head?_cons, Option.some.injEq] at hc
        exact hc ▸ hrest a (by simp [hr])
      · simp at hc
  have hnum := strtolStr_digits (x :: ds1) _ m (by simp) hdig hval hafter (by omega)
  refine ⟨(strtok (field1 ++ NUL :: x :: (ds1 ++ (rest ++ tail))) (field1.length + 1) [' ']).buf,
    ?_⟩
  unfold parseVoltage
  simp only [e, h1]
  simp only [List.cons_append, List.append_assoc] at h2a h2b ⊢
  rw [h2a]
  simp only [strtol, h2b, htokstr, hnum]
  have hcast : castU16 (m : Int) = m := by
    unfold castU16
    omega
  rw [hcast]

/-! ## The encrypted receive path -/

theorem cstr_append_nul (X : List Char) : cstr (X ++ [NUL]) = cstr X := by
  unfold cstr cstrAt
  simp only [List.drop_zero]
  rw [List.takeWhile_append]
  split
  · rename_i h
    have : X.takeWhile (fun c => c != NUL) = X := by
      apply List.IsPrefix.eq_of_length (List.takeWhile_prefix _) h
    rw [this]
    simp
  · rfl

theorem urcDetected_iff (buf : List Char) :
    urcDetected buf = true ↔ URC_SIGNATURE <:+: cstr (buf.take 30) := by
  unfold urcDetected
  rw [strstr_isSome, cstr_append_nul]

theorem findSub_lt (needle : List Char) (hne : needle ≠ []) (hay : List Char) :
    ∀ k, findSub needle hay = some k → k < hay.length := by
  induction hay with
  | nil =>
    intro k h
    unfold findSub at h
    have : needle.isPrefixOf [] = false := by
      cases needle with
      | nil => exact absurd rfl hne
      | cons a as => rfl
    simp [this] at h
  | cons c rest ih =>
    intro k h
    unfold findSub at h
    split at h
    · cases h; simp
    · cases hf : findSub needle rest with
      | none => rw [hf] at h; simp at h
      | some j =>
        rw [hf] at h
        simp only [Option.map_some', Option.some.injEq] at h
        have := ih j hf
        simp only [List.length_cons]
        omega

theorem strstr_lt (buf needle : List Char) (off k : Nat) (hne : needle ≠ [])
    (h : strstr buf off needle = some k) : k < buf.length := by
  unfold strstr at h
  cases hf : findSub needle (cstrAt buf off) with
  | none => rw [hf] at h; simp at h
  | some j =>
    rw [hf] at h
    simp only [Option.map_some', Option.some.injEq] at h
    have hj := findSub_lt needle hne _ j hf
    have hlen : (cstrAt buf off).length ≤ buf.length - off := by
      unfold cstrAt
      calc ((buf.drop off).takeWhile (fun c => c != NUL)).length
          ≤ (buf.drop off).length := (List.takeWhile_prefix _).length_le
        _ = buf.length - off := List.length_drop _ _
    omega

theorem parseSslLength_lt (buf : List Char) (len lf : Nat)
    (h : parseSslLength buf = .ok (len, lf)) : lf < buf.length := by
  unfold parseSslLength at h
  split at h
  · cases h
  · simp only at h
    split at h
    · cases h
    · rename_i lfToken hlf
      simp only [Except.ok.injEq, Prod.mk.injEq] at h
      rw [← h.2]
      exact strstr_lt _ _ _ _ (by simp) hlf

theorem sprintf_length (buf text : List Char) (h : text.length + 1 ≤ buf.length) :
    (sprintf buf text).length = buf.length := by
  unfold sprintf
  rw [blit_length _ _ _ (by simpa using h)]

theorem sendAndWaitForReply_untouched (command : List Char) (timeout lines : Nat)
    (s s1 : NanoCellular) (b : Bool)
    (h : sendAndWaitForReply command timeout lines s = .ok (b, s1)) :
    Untouched { flush s with uart := (flush s).uart.println command } s1 := by
  unfold sendAndWaitForReply at h
  exact readReply_untouched timeout lines _ s1 b h

/-! ## The claims, continued -/

/-- C14, amended: in encrypted mode with no pending length, when the
receive-length transaction succeeds, the first 30 bytes of the reply contain
`"\n\n+QSSLRE"`, the parsed length is between 1 and 255 and the additional read
`readReply(1000, 2)` succeeds, `available` stages the first `len` bytes of the
new reply and returns `len`, which stays the pending length. -/
theorem available_recovers_after_notification (s s1 s3 : NanoCellular) (len lf : Nat)
    (henc : useEncryption s = true) (hnone : s.sslLength = 0)
    (hwf : WellFormed s) (hrb : s._readBuffer.length = BUFFER_SIZE)
    (htx : receiveLengthQuery s = .ok (true, s1))
    (hsig : URC_SIGNATURE <:+: cstr (s1._buffer.take 30))
    (hlen : parseSslLength s1._buffer = .ok (len, lf)) (hpos : 0 < len) (hfit : len ≤ 255)
    (hrec : readReply 1000 2 { s1 with sslLength := len } = .ok (true, s3)) :
    available s = .ok (castInt len,
      { s3 with _readBuffer := blit s._readBuffer 0 (s3._buffer.take len) }) ∧
    s3.sslLength = len := by
  have hdet := (urcDetected_iff s1._buffer).mpr hsig
  have hu1 := sendAndWaitForReply_untouched _ _ _ _ _ _ htx
  have hu3 := readReply_untouched _ _ _ _ _ hrec
  obtain ⟨_, _, _, _, _, hrb1, _, hlen1, _⟩ := hu1
  obtain ⟨_, _, _, hssl3, _, hrb3, _, hlen3, _⟩ := hu3
  simp only [flush] at hrb1 hlen1
  simp only at hssl3 hrb3 hlen3
  have hb : s._buffer.length = 255 := hwf
  have hb1 : s1._buffer.length = 255 := by
    rw [hlen1, sprintf_length _ _ (by rw [hb]; decide), hb]
  refine ⟨?_, hssl3⟩
  have hns : ¬ (s.sslLength > 0) := by omega
  have hlt : len > 0 := hpos
  simp only [available, henc, if_true, if_neg hns, htx, hlen, if_pos hlt, hdet, hrec]
  unfold stage
  have hcond : 0 + s3.sslLength ≤ s3._buffer.length ∧ s3.sslLength ≤ s3._readBuffer.length := by
    rw [hssl3, hlen3, hb1, hrb3, hrb1, hrb]
    simp only [BUFFER_SIZE]
    omega
  rw [if_pos hcond, hssl3, hrb3, hrb1]
  simp

/-- C15: in encrypted mode with no pending length, when the signature is in the
first 30 bytes of the reply, the parsed length is positive and the additional
read fails, `available` returns 0, sets the pending length to 0 and leaves the
staging buffer as it was. -/
theorem available_recovery_read_fails (s s1 s3 : NanoCellular) (len lf : Nat)
    (henc : useEncryption s = true) (hnone : s.sslLength = 0)
    (htx : receiveLengthQuery s = .ok (true, s1))
    (hsig : URC_SIGNATURE <:+: cstr (s1._buffer.take 30))
    (hlen : parseSslLength s1._buffer = .ok (len, lf)) (hpos : 0 < len)
    (hrec : readReply 1000 2 { s1 with sslLength := len } = .ok (false, s3)) :
    available s = .ok (0, { s3 with sslLength := 0 }) ∧ s3._readBuffer = s._readBuffer := by
  have hdet := (urcDetected_iff s1._buffer).mpr hsig
  have hu1 := sendAndWaitForReply_untouched _ _ _ _ _ _ htx
  have hu3 := readReply_untouched _ _ _ _ _ hrec
  obtain ⟨_, _, _, _, _, hrb1, _, _, _⟩ := hu1
  obtain ⟨_, _, _, _, _, hrb3, _, hlen3, _⟩ := hu3
  simp only [flush] at hrb1
  simp only at hrb3 hlen3
  refine ⟨?_, by rw [hrb3, hrb1]⟩
  have hns : ¬ (s.sslLength > 0) := by omega
  have hlt : len > 0 := hpos
  have hlf := parseSslLength_lt _ _ _ hlen
  simp only [available, henc, if_true, if_neg hns, htx, hlen, if_pos hlt, hdet, hrec]
  unfold stage
  have hcond : lf + 1 + ({ s3 with sslLength := 0 } : NanoCellular).sslLength ≤
      ({ s3 with sslLength := 0 } : NanoCellular)._buffer.length ∧
      ({ s3 with sslLength := 0 } : NanoCellular).sslLength ≤
      ({ s3 with sslLength := 0 } : NanoCellular)._readBuffer.length := by
    simp only [hlen3]
    omega
  rw [if_pos hcond]
  simp [castInt, blit_nil]

/-! ## What read leaves alone -/

theorem timedRead_untouched (ms : Nat) :
    ∀ s : NanoCellular, Untouched s (timedRead ms s).2 := by
  induction ms with
  | zero =>
    intro s
    unfold timedRead
    split <;> simp [Untouched]
  | succ n ih =>
    intro s
    unfold timedRead
    split
    · simp [Untouched]
    · exact (Untouched.delay 1 s).trans (ih _)

theorem readBytes_untouched (left : Nat) :
    ∀ (count : Nat) (buf : List Char) (s : NanoCellular) (r : Nat × List Char × NanoCellular),
      readBytes left count buf s = .ok r → Untouched s r.2.2 := by
  induction left with
  | zero =>
    intro count buf s r h
    simp only [readBytes] at h
    cases h
    exact Untouched.refl s
  | succ n ih =>
    intro count buf s r h
    rw [readBytes] at h
    have hu := timedRead_untouched 1000 s
    split at h
    · rename_i s1 heq
      cases h
      rw [heq] at hu
      exact hu
    · rename_i c s1 heq
      rw [heq] at hu
      split at h
      · cases h
      · exact hu.trans (ih _ _ _ _ h)

/-- `read` never writes the pending length, the mode or the staging buffer. -/
theorem read_untouched (buf : List Char) (size : Nat) (s : NanoCellular)
    (r : Int × List Char × NanoCellular) (h : read buf size s = .ok r) :
    r.2.2.sslLength = s.sslLength ∧ r.2.2._encryption = s._encryption ∧
      r.2.2._readBuffer = s._readBuffer := by
  unfold read at h
  split at h
  · cases h; exact ⟨rfl, rfl, rfl⟩
  · simp only at h
    split at h
    · cases h
    · rename_i s1 htx
      cases h
      have hu := sendAndWaitForReply_untouched _ _ _ _ _ _ htx
      exact ⟨hu.2.2.2.1, hu.2.2.2.2.2.2.1, hu.2.2.2.2.2.1⟩
    · rename_i s1 htx
      have hu := sendAndWaitForReply_untouched _ _ _ _ _ _ htx
      split at h
      · split at h
        · cases h
        · split at h
          · cases h
          · rename_i v hv cnt buf1 s2 hrb
            have hu2 := readBytes_untouched _ _ _ _ _ hrb
            split at h
            · cases h
            · cases h
              exact ⟨hu2.2.2.2.1.trans hu.2.2.2.1, hu2.2.2.2.2.2.2.1.trans hu.2.2.2.2.2.2.1,
                hu2.2.2.2.2.2.1.trans hu.2.2.2.2.2.1⟩
      · cases h
        exact ⟨hu.2.2.2.1, hu.2.2.2.2.2.2.1, hu.2.2.2.2.2.1⟩

/-- C16: `read` leaves the pending length alone. After a `read` that returns,
in encrypted mode with a positive pending length, `sslLength` is what it was
and the next `available` returns the old length without a transaction. -/
theorem read_keeps_pending_length (buf : List Char) (size : Nat) (s : NanoCellular)
    (r : Int × List Char × NanoCellular) (h : read buf size s = .ok r)
    (henc : useEncryption s = true) (hpos : 0 < s.sslLength) :
    r.2.2.sslLength = s.sslLength ∧ available r.2.2 = .ok (castInt s.sslLength, r.2.2) := by
  obtain ⟨h1, h2, _⟩ := read_untouched buf size s r h
  refine ⟨h1, ?_⟩
  have henc' : useEncryption r.2.2 = true := by
    unfold useEncryption at henc ⊢
    rw [h2]; exact henc
  have hpos' : r.2.2.sslLength > 0 := by rw [h1]; exact hpos
  have hpos2 : s.sslLength > 0 := hpos
  simp only [available, henc', if_true, h1, if_pos hpos2]

/-! ## Power-on and the readiness wait -/

/-- A transaction on a port that delivers nothing: `sendAndCheckReply` answers
from the buffer as it was. -/
theorem sendAndCheckReply_quiet (command reply : List Char) (timeout : Nat) (s : NanoCellular)
    (ht : 1 ≤ timeout) (hquiet : ∀ chunk ∈ s.uart.incoming, chunk = []) :
    ∃ s1, sendAndCheckReply command reply timeout s =
        .ok ((strstr s._buffer 0 reply).isSome, s1) ∧
      s1._buffer = s._buffer ∧ (∀ chunk ∈ s1.uart.incoming, chunk = []) ∧
      s1._statusPin = s._statusPin ∧ s1._powerPin = s._powerPin := by
  have hs : ({ flush s with uart := (flush s).uart.println command } : NanoCellular).uart.Silent := by
    constructor
    · simp [flush, Uart.println]
    · simpa [flush, Uart.println] using hquiet
  obtain ⟨t, rfl⟩ : ∃ t, timeout = t + 1 := ⟨timeout - 1, by omega⟩
  obtain ⟨s1, h1, h2, _, h4⟩ := readLoop_silent 1 (le_refl 1) t _ hs
  have hr : readReply (t + 1) 1 { flush s with uart := (flush s).uart.println command } =
      .ok (false, s1) := by
    simp [readReply, readReplyFrom, h1, Except.map]
  have hu := readReply_untouched _ _ _ _ _ hr
  have h2' : s1._buffer = s._buffer := by simpa [flush] using h2
  refine ⟨s1, ?_, h2', h4.2, ?_, ?_⟩
  · simp only [sendAndCheckReply, sendAndWaitForReply, hr, h2']
  · simpa [flush] using hu.2.2.1
  · simpa [flush] using hu.2.1

theorem Uart.wait_incoming_empty (n : Nat) :
    ∀ u : Uart, (∀ chunk ∈ u.incoming, chunk = []) →
      ∀ chunk ∈ (u.wait n).incoming, chunk = [] := by
  induction n with
  | zero => intro u h; exact h
  | succ n ih =>
    intro u h
    rw [Uart.wait]
    apply ih
    unfold Uart.tick
    split
    · exact h
    · rename_i chunk later heq
      intro c hc
      exact h c (by rw [heq]; simp [hc])

theorem quiet_delay (ms : Nat) (s : NanoCellular)
    (hquiet : ∀ chunk ∈ s.uart.incoming, chunk = []) :
    ∀ chunk ∈ (delay ms (callWatchdog s)).uart.incoming, chunk = [] := by
  simpa [delay, callWatchdog] using Uart.wait_incoming_empty ms s.uart hquiet

/-- On a port that delivers nothing, with no `"AT"` left in the buffer, every
round of the loop of `setPower(true)` fails and the budget runs out. -/
theorem openCommunications_quiet (k : Nat) :
    ∀ s : NanoCellular, (∀ chunk ∈ s.uart.incoming, chunk = []) →
      ¬ _AT <:+: cstr s._buffer →
      ∃ s1, openCommunications k s = .ok (0, s1) := by
  induction k with
  | zero => intro s _ _; exact ⟨s, rfl⟩
  | succ k ih =>
    intro s hquiet hbuf
    obtain ⟨s1, h1, h2, h3, _⟩ := sendAndCheckReply_quiet _AT _AT 1000 (flush s) (by decide)
      (by simpa [flush] using hquiet)
    have hnone : (strstr (flush s)._buffer 0 _AT).isSome = false := by
      have : strstr s._buffer 0 _AT = none := (strstr_eq_none _ _).mpr hbuf
      simp [flush, this]
    rw [hnone] at h1
    obtain ⟨s2, h⟩ := ih (delay 500 (callWatchdog s1)) (quiet_delay 500 s1 h3)
      (by
        have : (delay 500 (callWatchdog s1))._buffer = s._buffer := by
          simpa [delay, callWatchdog, flush] using h2
        rw [this]; exact hbuf)
    exact ⟨s2, by simp only [openCommunications, h1, h]⟩

/-- The return value of `setPower(true)`: the test `timeout < 0` after the loop
never holds, as the loop leaves `timeout` at 0 or above. -/
theorem setPower_on_returns_true (s : NanoCellular) (r : Bool × NanoCellular)
    (h : setPower true s = .ok r) : r.1 = true := by
  unfold setPower at h
  simp only [if_true] at h
  split at h
  · cases h
  · split at h
    · cases h
    · rename_i left s3 _
      have : ¬ (500 * (left : Int) < 0) := by omega
      rw [if_neg this] at h
      cases h
      rfl

theorem powerCycle_quiet (s : NanoCellular)
    (hquiet : ∀ chunk ∈ s.uart.incoming, chunk = []) :
    (∀ chunk ∈ (powerCycle s).uart.incoming, chunk = []) ∧
      (powerCycle s)._buffer = s._buffer ∧ (powerCycle s)._statusPin = s._statusPin := by
  unfold powerCycle
  split
  · refine ⟨?_, by simp [digitalWritePower, delay], by simp [digitalWritePower, delay]⟩
    simpa [digitalWritePower, delay] using Uart.wait_incoming_empty 300 s.uart hquiet
  · exact ⟨hquiet, rfl, rfl⟩

theorem waitStatus_ready (fuel : Nat) (s : NanoCellular) (h : getStatus s = true) :
    waitStatus fuel s = .ok s := by
  cases fuel <;> simp [waitStatus, h]

/-- C19: with no status pin, on a port on which nothing arrives and with no
`"AT"` in the buffer, all 14 attempts of `setPower(true)` fail and the budget
runs out, yet `setPower(true)` returns `true`. -/
theorem setPower_on_unanswered (s : NanoCellular) (hpin : s._statusPin = NOT_A_PIN)
    (hquiet : ∀ chunk ∈ s.uart.incoming, chunk = [])
    (hbuf : ¬ _AT <:+: cstr s._buffer) :
    ∃ s2, openCommunications 14 (powerCycle s) = .ok (0, s2) ∧
      setPower true s = .ok (true, s2) := by
  obtain ⟨hq, hb, hp⟩ := powerCycle_quiet s hquiet
  have hst : getStatus (powerCycle s) = true := by
    simp [getStatus, hp, hpin]
  obtain ⟨s2, h2⟩ := openCommunications_quiet 14 (powerCycle s) hq (by rw [hb]; exact hbuf)
  refine ⟨s2, h2, ?_⟩
  simp only [setPower, if_true, waitStatus_ready _ _ hst, h2]
  simp

/-- C19 on an object without pins whose port stays silent. -/
theorem setPower_on_unanswered_witness :
    ∃ s2, openCommunications 14 (powerCycle (sample [] [] [])) = .ok (0, s2) ∧
      setPower true (sample [] [] []) = .ok (true, s2) :=
  setPower_on_unanswered (sample [] [] []) (by decide) (by decide) (by decide!)

theorem awaitMarker_missed (marker : List Char) (k : Nat) :
    ∀ s : NanoCellular, (pollReplies k s).all (missed marker) = true →
      ∃ s4, awaitMarker marker k s = .ok (0, s4) ∧ Untouched s s4 := by
  induction k with
  | zero => intro s _; exact ⟨s, rfl, Untouched.refl s⟩
  | succ k ih =>
    intro s h
    rw [pollReplies, List.all_cons, Bool.and_eq_true] at h
    obtain ⟨h1, h2⟩ := h
    cases hr : readReply 500 1 s with
    | error e => rw [hr] at h1; simp [missed] at h1
    | ok r =>
      obtain ⟨found, s1⟩ := r
      rw [hr] at h1 h2
      simp only [missed, Bool.not_eq_true'] at h1
      simp only at h2
      obtain ⟨s4, h4, hu4⟩ := ih _ h2
      have hu1 := readReply_untouched _ _ _ _ _ hr
      refine ⟨s4, ?_, (hu1.trans ((Untouched.callWatchdog _).trans (Untouched.delay 500 _))).trans
        hu4⟩
      rw [awaitMarker]
      simp only [hr, h1, h4]
      simp

/-- C18: after the power stage and a SIM check that passed, if none of the ten
polls of the readiness wait comes back with a line that contains `READY`, the
wait ends with no budget left, `begin` returns `false`, and nothing was sent
after the SIM check. -/
theorem begin_without_ready (s s1 s2 s3 : NanoCellular) (b1 b2 : Bool)
    (hoff : setPower false s = .ok (b1, s1)) (hon : setPower true s1 = .ok (b2, s2))
    (hsim : getSimPresent s2 = .ok (true, s3))
    (hmiss : (pollReplies 10 s3).all (missed "READY".toList) = true) :
    ∃ s4, awaitMarker "READY".toList 10 s3 = .ok (0, s4) ∧ begin s = .ok (false, s4) ∧
      s4.uart.tx = s3.uart.tx := by
  obtain ⟨s4, h4, hu⟩ := awaitMarker_missed "READY".toList 10 s3 hmiss
  refine ⟨s4, h4, ?_, hu.2.2.2.2.2.2.2.2.1⟩
  simp only [begin, hoff, hon, hsim, bringUp, h4]
  simp

/-! ## Intervals in which nothing arrives -/

theorem Uart.wait_quiet (n : Nat) :
    ∀ u : Uart, (∀ chunk ∈ u.incoming.take n, chunk = []) →
      u.wait n = { u with incoming := u.incoming.drop n } := by
  induction n with
  | zero => intro u _; simp [Uart.wait]
  | succ n ih =>
    intro u h
    rw [Uart.wait]
    cases hi : u.incoming with
    | nil =>
      have ht : u.tick = u := by simp [Uart.tick, hi]
      rw [ht, ih u (by simp [hi])]
      simp [hi]
    | cons c later =>
      have hc : c = [] := h c (by simp [hi])
      have ht : u.tick = { u with rx := u.rx, incoming := later } := by
        simp [Uart.tick, hi, hc]
      rw [ht, ih _ (by
        intro chunk hmem
        exact h chunk (by simp only [hi, List.take_succ_cons, List.mem_cons]; right; simpa using hmem))]
      simp

theorem elapse_elapse (a b c d : Nat) (s : NanoCellular) :
    elapse a b (elapse c d s) = elapse (c + a) (d + b) s := by
  simp only [elapse, List.drop_drop, Nat.add_assoc]

theorem QuietFor.mono {t t1 : Nat} {s : NanoCellular} (h : QuietFor t s) (hle : t1 ≤ t) :
    QuietFor t1 s := by
  refine ⟨h.1, fun chunk hmem => h.2 chunk ?_⟩
  exact (List.take_subset_take_left _ hle) hmem

theorem QuietFor.elapse {t a w : Nat} {s : NanoCellular} (h : QuietFor (a + t) s) :
    QuietFor t (elapse a w s) := by
  refine ⟨h.1, fun chunk hmem => h.2 chunk ?_⟩
  simp only [Nano.elapse] at hmem
  rw [← List.take_append_drop a (List.take (a + t) s.uart.incoming)]
  simp only [List.mem_append]
  right
  rw [List.drop_take]
  simpa using hmem

theorem delay_callWatchdog_quiet (n : Nat) (s : NanoCellular) (h : QuietFor n s) :
    delay n (callWatchdog s) = elapse n 1 s := by
  simp only [delay, callWatchdog, elapse, Uart.wait_quiet n s.uart h.2]

theorem elapse_zero (s : NanoCellular) : elapse 0 0 s = s := by
  simp [elapse]

/-- While nothing arrives, the framing loop of `readReply` runs out its budget
and returns `false`: `t` milliseconds pass and nothing else changes. -/
theorem readLoop_quiet (lines : Nat) (hl : 1 ≤ lines) (t : Nat) :
    ∀ s : NanoCellular, QuietFor t s →
      readLoop lines (t + 1) s 0 0 = .ok ⟨false, 0, elapse t t s⟩ := by
  induction t with
  | zero =>
    intro s h
    have hrx := h.1
    have hlt : ¬ (0 ≥ lines) := by omega
    have hs : ({ s with uart := { s.uart with rx := [] }, _buffer := s._buffer } : NanoCellular)
        = s := by
      cases s
      rename_i u _ _ _ _ _ _ _ _ _ _
      cases u
      simp_all
    simp only [readLoop, hrx, drain]
    simp [hlt, hs, elapse_zero]
  | succ n ih =>
    intro s h
    have hrx := h.1
    have hlt : ¬ (0 ≥ lines) := by omega
    have hs : ({ s with uart := { s.uart with rx := [] }, _buffer := s._buffer } : NanoCellular)
        = s := by
      cases s
      rename_i u _ _ _ _ _ _ _ _ _ _
      cases u
      simp_all
    rw [readLoop]
    simp only [hrx, drain]
    simp only [hs, gt_iff_lt, Nat.not_lt_zero, if_false, ge_iff_le, Nat.le_zero_eq]
    have hl0 : ¬ (lines = 0) := by omega
    simp only [hl0, if_false, Nat.add_one_ne_zero]
    rw [delay_callWatchdog_quiet 1 s (h.mono (by omega))]
    have hq : QuietFor n (elapse 1 1 s) := by
      apply QuietFor.elapse
      rw [Nat.add_comm]; exact h
    rw [ih _ hq, elapse_elapse, Nat.add_comm 1 n]

theorem readReply_quiet (t lines : Nat) (hl : 1 ≤ lines) (s : NanoCellular)
    (h : QuietFor t s) : readReply (t + 1) lines s = .ok (false, elapse t t s) := by
  simp [readReply, readReplyFrom, readLoop_quiet lines hl t s h, Except.map]

/-- While nothing arrives, a round of a marker wait of `begin` takes 999
milliseconds and 500 calls of the watchdog, and the wait goes on. -/
theorem awaitMarker_quiet_round (marker : List Char) (k : Nat) (s : NanoCellular)
    (h : QuietFor 999 s) :
    awaitMarker marker (k + 1) s = awaitMarker marker k (elapse 999 500 s) := by
  have h1 := readReply_quiet 499 1 (le_refl 1) s (h.mono (by omega))
  have hq : QuietFor 500 (elapse 499 499 s) := by
    apply QuietFor.elapse
    exact h
  rw [awaitMarker]
  simp only [h1, Bool.false_and, Bool.false_eq_true, if_false]
  rw [delay_callWatchdog_quiet 500 _ hq, elapse_elapse]

theorem awaitMarker_quiet (marker : List Char) (k j : Nat) :
    ∀ s : NanoCellular, QuietFor (999 * j) s →
      awaitMarker marker (k + j) s = awaitMarker marker k (elapse (999 * j) (500 * j) s) := by
  induction j with
  | zero => intro s _; simp [elapse_zero]
  | succ j ih =>
    intro s h
    have e : k + (j + 1) = (k + j) + 1 := by omega
    rw [e, awaitMarker_quiet_round marker (k + j) s (h.mono (by omega))]
    have hq : QuietFor (999 * j) (elapse 999 500 s) := by
      apply QuietFor.elapse
      have : 999 + 999 * j = 999 * (j + 1) := by ring
      rw [this]; exact h
    rw [ih _ hq, elapse_elapse]
    have e1 : 999 + 999 * j = 999 * (j + 1) := by ring
    have e2 : 500 + 500 * j = 500 * (j + 1) := by ring
    rw [e1, e2]

/-! ## The registration wait of begin -/

/-- A run whose value has first component `a` returned `a` and the object
`stateAfter` names. -/
theorem stateAfter_spec {α : Type} (r : Except Fault (α × NanoCellular)) (s : NanoCellular)
    (a : α) (h : r.map Prod.fst = .ok a) : r = .ok (a, stateAfter r s) := by
  cases r with
  | error e => cases h
  | ok v =>
    have ha : v.1 = a := by
      simpa [Except.map] using h
    subst ha
    rfl

/-- A registration poll that starts with one step of 500 ms left and gets
`Registered` or `Roaming` leaves the loop with nothing left. -/
theorem awaitRegistration_last (s s1 : NanoCellular) (state : NetworkRegistrationState)
    (hreg : getNetworkRegistration s = .ok (state, s1))
    (hstate : state = NetworkRegistrationState.Registered ∨
      state = NetworkRegistrationState.Roaming) :
    awaitRegistration 1 s = .ok (0, delay 500 (callWatchdog s1)) := by
  simp only [awaitRegistration, hreg, if_pos hstate]

/-- C20: when the readiness wait succeeded, `CONNECTED` is seen with 500 ms of
the budget left and the registration poll that follows returns `Registered` or
`Roaming`, the registration loop ends with no budget left and `begin` returns
`false`; nothing is sent after the registration query. -/
theorem begin_registered_on_last_step (s s1 s2 s3 s4 s5 s6 : NanoCellular) (b1 b2 : Bool)
    (left : Nat) (state : NetworkRegistrationState)
    (hoff : setPower false s = .ok (b1, s1)) (hon : setPower true s1 = .ok (b2, s2))
    (hsim : getSimPresent s2 = .ok (true, s3))
    (hready : awaitMarker "READY".toList 10 s3 = .ok (left + 1, s4))
    (hconn : awaitMarker "CONNECTED".toList 120 s4 = .ok (1, s5))
    (hreg : getNetworkRegistration s5 = .ok (state, s6))
    (hstate : state = NetworkRegistrationState.Registered ∨
      state = NetworkRegistrationState.Roaming) :
    awaitRegistration 1 s5 = .ok (0, delay 500 (callWatchdog s6)) ∧
      begin s = .ok (false, delay 500 (callWatchdog s6)) ∧
      (delay 500 (callWatchdog s6)).uart.tx = s6.uart.tx := by
  have h1 := awaitRegistration_last s5 s6 state hreg hstate
  refine ⟨h1, ?_, by simp [delay, callWatchdog, Uart.wait_tx]⟩
  simp only [begin, hoff, hon, hsim, bringUp, hready, hconn, h1]
  simp

/-! ## The claims about the identity, battery and socket queries -/

/-- C11: on the reply buffer `"#ICCID: 898600220909A0206023\nOK"` the tokenizing
of `getSIMICCID`, which cuts at spaces only, copies the rest of the buffer,
`"898600220909A0206023\nOK"`, and returns 23; on the module's reply to
`AT#ICCID` as `readReply` stores it, 25 bytes are copied. -/
theorem getSIMICCID_copies_following_line :
    cstr iccidBuffer = "#ICCID: 898600220909A0206023\nOK".toList ∧
      (parseICCID (zeros 32) iccidBuffer).map (fun r => (r.1, cstr r.2.1)) =
        .ok (23, "898600220909A0206023\nOK".toList) ∧
      (getSIMICCID (zeros 32) iccidReply).map (fun r => (r.1, cstr r.2.1)) =
        .ok (25, "898600220909A0206023\n\nOK\n".toList) := by
  decide!

/-- C13: for the reply `+CGSN: "352656100367872"`, `getIMEI` copies the 15
bytes that start at the quote, which are the quote and the first 14 digits, and
returns 15. -/
theorem getIMEI_copies_the_quote :
    (sendAndWaitForReply "AT+CGSN=1".toList 1000 1 imeiReply).map
        (fun r => (r.1, cstr r.2._buffer)) =
      .ok (true, "+CGSN: \"352656100367872\"\n".toList) ∧
    (getIMEI (zeros 16) imeiReply).map (fun r => (r.1, cstr r.2.1)) =
      .ok (15, "\"35265610036787".toList) := by
  decide!

/-- C17: when the header declares 5 bytes and the port delivers 2 of them
before a second of silence, `read` returns 5, with `"he"` in the caller's array
and nothing left to read. -/
theorem read_returns_declared_length :
    (read (zeros 16) 10 shortPayload).map (fun r => (r.1, cstr r.2.1, r.2.2.uart.rx)) =
      .ok (5, "he".toList, []) := by
  decide!

/-- C12. When the `AT%XVBAT` transaction succeeds and the reply is a first
field, a space, and a second field that begins with decimal digits `ds` whose
value is `m ≤ 65535` (followed by no further digit), `getVoltage` returns `m`
divided by 1000. The `double` of the source is modelled by the exact quotient,
of which it is the correctly rounded value. -/
theorem getVoltage_millivolts (s s1 : NanoCellular) (field1 ds rest : List Char) (m : Nat)
    (htx : sendAndWaitForReply "AT%XVBAT".toList 1000 3 s = .ok (true, s1))
    (hreply : cstr s1._buffer = field1 ++ ' ' :: (ds ++ rest))
    (hf1 : field1 ≠ []) (hsp : ' ' ∉ field1) (hne : ds ≠ [])
    (hdig : ∀ c ∈ ds, isdigit c = true)
    (hval : Nat.ofDigits 10 (ds.map (fun c => c.toNat - 48)).reverse = m)
    (hrest : ∀ c, rest.head? = some c → isdigit c = false) (hm : m ≤ 65535) :
    ∃ s2, getVoltage s = .ok ((m : ℚ) / 1000, s2) := by
  obtain ⟨buf1, h⟩ := parseVoltage_second_token s1._buffer field1 ds rest m hreply hf1 hsp hne
    hdig hval hrest hm
  exact ⟨{ s1 with _buffer := buf1 }, by simp only [getVoltage, htx, h]⟩

/-- C12 for a module that answers `%XVBAT: 5059` and `OK`, and for the tokenizing
on the buffer `"%XVBAT: 5059\nOK"`: 5059 thousandths. -/
theorem getVoltage_millivolts_witness :
    (∃ s2, getVoltage xvbatReply = .ok (((5059 : ℕ) : ℚ) / 1000, s2)) ∧
      cstr xvbatBuffer._buffer = "%XVBAT: 5059\nOK".toList ∧
      ∃ buf1, parseVoltage xvbatBuffer._buffer = .ok (((5059 : ℕ) : ℚ) / 1000, buf1) :=
  ⟨getVoltage_millivolts xvbatReply
      (stateAfter (sendAndWaitForReply "AT%XVBAT".toList 1000 3 xvbatReply) xvbatReply)
      "%XVBAT:".toList "5059".toList "\n\nOK\n".toList 5059 (by decide!) (by decide!)
      (by decide) (by decide) (by decide) (by decide) (by decide) (by decide) (by decide),
    by decide!,
    parseVoltage_second_token xvbatBuffer._buffer "%XVBAT:".toList "5059".toList "\nOK".toList
      5059 (by decide!) (by decide) (by decide) (by decide) (by decide) (by decide)
      (by decide) (by decide)⟩

/-- C14, amended, on `urcFirst`: the five bytes `hello` of the additional reply
are staged. -/
theorem available_recovers_after_notification_witness :
    (available urcFirst = .ok (castInt 5,
        { afterRecovery 5 urcFirst with
          _readBuffer := blit urcFirst._readBuffer 0 ((afterRecovery 5 urcFirst)._buffer.take 5) }) ∧
      (afterRecovery 5 urcFirst).sslLength = 5) ∧
    (available urcFirst).map (fun r => (r.1, cstr r.2._readBuffer)) = .ok (5, "hello".toList) :=
  ⟨available_recovers_after_notification urcFirst (afterQuery urcFirst) (afterRecovery 5 urcFirst)
    5 32 (by decide) (by decide) (by decide!) (by decide!) (by decide!) (by decide!) (by decide!)
    (by decide) (by decide) (by decide!),
  by decide!⟩

/-- C14 fails on `urcZero`, where the reply has the signature and the length
0: `available` returns 0 with the object as the transaction left it, and the
line that an additional read would consume is still to arrive. -/
theorem available_zero_length_skips_recovery :
    useEncryption urcZero = true ∧ urcZero.sslLength = 0 ∧
    receiveLengthQuery urcZero = .ok (true, afterQuery urcZero) ∧
    URC_SIGNATURE <:+: cstr ((afterQuery urcZero)._buffer.take 30) ∧
    available urcZero = .ok (0, afterQuery urcZero) ∧
    (afterQuery urcZero).uart.incoming = ["\r\nOK\r\n".toList] ∧
    (readReply 1000 2 (afterQuery urcZero)).map (fun r => r.2.uart.incoming) = .ok [] := by
  decide!

theorem urcLost_runs :
    (receiveLengthQuery urcLost).map Prod.fst = .ok true ∧
    (readReply 1000 2 { afterQuery urcLost with sslLength := 5 }).map Prod.fst = .ok false := by
  decide!

/-- C15 on `urcLost`: nothing follows the notification, 0 is returned and the
staging buffer still holds its zero bytes. -/
theorem available_recovery_read_fails_witness :
    (available urcLost = .ok (0, { afterRecovery 5 urcLost with sslLength := 0 }) ∧
      (afterRecovery 5 urcLost)._readBuffer = urcLost._readBuffer) ∧
    urcLost._readBuffer = zeros 255 :=
  ⟨available_recovery_read_fails urcLost (afterQuery urcLost) (afterRecovery 5 urcLost) 5 32
    (by decide) (by decide) (stateAfter_spec _ _ _ urcLost_runs.1) (by decide!) (by decide!)
    (by decide) (stateAfter_spec _ _ _ urcLost_runs.2),
  by decide!⟩

/-- C16 on `stagedFive`: `read` delivers `hello`, and the five bytes stay
pending. -/
theorem read_keeps_pending_length_witness :
    (stagedRead.2.2.sslLength = stagedFive.sslLength ∧
      available stagedRead.2.2 = .ok (castInt stagedFive.sslLength, stagedRead.2.2)) ∧
    read (zeros 16) 10 stagedFive = .ok stagedRead ∧
    (stagedRead.1, cstr stagedRead.2.1, stagedFive.sslLength) = (5, "hello".toList, 5) :=
  ⟨read_keeps_pending_length (zeros 16) 10 stagedFive stagedRead (by decide!) (by decide)
    (by decide),
  by decide!, by decide!⟩

/-! ## The claims about `begin` -/

theorem neverReady_stages :
    (setPower false neverReady).map Prod.fst = .ok true ∧
    (setPower true (stateAfter (setPower false neverReady) neverReady)).map Prod.fst
      = .ok true ∧
    (getSimPresent (powered neverReady)).map Prod.fst = .ok true ∧
    (pollReplies 10 (simChecked neverReady)).all (missed "READY".toList) = true ∧
    (simChecked neverReady).uart.tx = "AT\r\nAT%XSIM?\r\n".toList := by
  decide!

/-- C18 on `neverReady`: the last bytes sent are those of the SIM check. -/
theorem begin_without_ready_witness :
    (∃ s4, awaitMarker "READY".toList 10 (simChecked neverReady) = .ok (0, s4) ∧
      begin neverReady = .ok (false, s4) ∧ s4.uart.tx = (simChecked neverReady).uart.tx) ∧
    (simChecked neverReady).uart.tx = "AT\r\nAT%XSIM?\r\n".toList :=
  ⟨begin_without_ready neverReady (stateAfter (setPower false neverReady) neverReady)
    (powered neverReady) (simChecked neverReady) true true
    (stateAfter_spec _ _ _ neverReady_stages.1)
    (stateAfter_spec _ _ _ neverReady_stages.2.1)
    (stateAfter_spec _ _ _ neverReady_stages.2.2.1)
    neverReady_stages.2.2.2.1,
  neverReady_stages.2.2.2.2⟩

/-! ## A longer schedule of arriving bytes -/

theorem Uart.tick_exhausted (u : Uart) (h : u.incoming = []) : u.tick.incoming = [] := by
  simp [Uart.tick, h]

theorem Uart.tick_prolong (extra : List (List Char)) (u : Uart) (h : u.tick.incoming ≠ []) :
    (u.prolong extra).tick = u.tick.prolong extra := by
  cases hi : u.incoming with
  | nil => exact absurd (Uart.tick_exhausted u hi) h
  | cons c later => simp [Uart.tick, Uart.prolong, hi]

theorem Uart.wait_exhausted (n : Nat) :
    ∀ u : Uart, u.incoming = [] → (u.wait n).incoming = [] := by
  induction n with
  | zero => intro u h; exact h
  | succ n ih => intro u h; rw [Uart.wait]; exact ih _ (Uart.tick_exhausted u h)

theorem Uart.wait_prolong (extra : List (List Char)) (n : Nat) :
    ∀ u : Uart, (u.wait n).incoming ≠ [] → (u.prolong extra).wait n = (u.wait n).prolong extra := by
  induction n with
  | zero => intro u _; rfl
  | succ n ih =>
    intro u h
    rw [Uart.wait] at h ⊢
    have ht : u.tick.incoming ≠ [] := fun h0 => h (Uart.wait_exhausted n _ h0)
    rw [Uart.tick_prolong extra u ht, ih _ h]
    rw [Uart.wait]

theorem delay_exhausted (ms : Nat) (s : NanoCellular) (h : s.uart.incoming = []) :
    (delay ms s).uart.incoming = [] := by
  simpa [delay] using Uart.wait_exhausted ms s.uart h

theorem delay_prolong (extra : List (List Char)) (ms : Nat) (s : NanoCellular)
    (h : (delay ms s).uart.incoming ≠ []) :
    delay ms (prolong extra s) = prolong extra (delay ms s) := by
  have h1 : (s.uart.wait ms).incoming ≠ [] := by simpa [delay] using h
  simp only [delay, prolong, Uart.wait_prolong extra ms s.uart h1]

theorem terminate_prolong (extra : List (List Char)) (s : NanoCellular) (i : Nat) :
    terminate (prolong extra s) i =
      (terminate s i).map (fun o => { o with st := prolong extra o.st }) := by
  unfold terminate
  have : (prolong extra s)._buffer = s._buffer := rfl
  rw [this]
  cases poke s._buffer i NUL with
  | error e => rfl
  | ok b => rfl

theorem terminate_incoming (s : NanoCellular) (i : Nat) (o : Outcome)
    (h : terminate s i = .ok o) : o.st.uart.incoming = s.uart.incoming := by
  unfold terminate at h
  cases hp : poke s._buffer i NUL with
  | error e => rw [hp] at h; cases h
  | ok b => rw [hp] at h; cases h; rfl

theorem prolong_frame (extra : List (List Char)) (s : NanoCellular) (rx buf : List Char) :
    ({ prolong extra s with
        uart := { (prolong extra s).uart with rx := rx },
        _buffer := buf } : NanoCellular) =
      prolong extra { s with uart := { s.uart with rx := rx }, _buffer := buf } := rfl

theorem readLoop_full (lines t : Nat) (s : NanoCellular) (i l : Nat) (hi : i > 254) :
    readLoop lines (t + 1) s i l = terminate s i := by
  rw [readLoop, if_pos hi]

theorem readLoop_fault (lines t : Nat) (s : NanoCellular) (i l : Nat) (e : Fault)
    (hi : ¬ i > 254) (hf : drain lines s.uart.rx i l s._buffer = .error e) :
    readLoop lines (t + 1) s i l = .error e := by
  rw [readLoop, if_neg hi, hf]

theorem readLoop_done (lines t : Nat) (s : NanoCellular) (i l : Nat) (f : Frame)
    (hi : ¬ i > 254) (hf : drain lines s.uart.rx i l s._buffer = .ok f)
    (hl : f.linesFound ≥ lines) :
    readLoop lines (t + 1) s i l =
      terminate { s with uart := { s.uart with rx := f.rx }, _buffer := f.buf } f.index := by
  rw [readLoop, if_neg hi, hf]
  simp only [if_pos hl]

theorem readLoop_last (lines : Nat) (s : NanoCellular) (i l : Nat) (f : Frame)
    (hi : ¬ i > 254) (hf : drain lines s.uart.rx i l s._buffer = .ok f)
    (hl : ¬ f.linesFound ≥ lines) :
    readLoop lines (0 + 1) s i l =
      .ok ⟨false, f.index, { s with uart := { s.uart with rx := f.rx }, _buffer := f.buf }⟩ := by
  rw [readLoop, if_neg hi, hf]
  simp only [if_neg hl, if_true]

theorem readLoop_next (lines t : Nat) (s : NanoCellular) (i l : Nat) (f : Frame)
    (hi : ¬ i > 254) (hf : drain lines s.uart.rx i l s._buffer = .ok f)
    (hl : ¬ f.linesFound ≥ lines) (ht : t ≠ 0) :
    readLoop lines (t + 1) s i l =
      readLoop lines t
        (delay 1 (callWatchdog { s with uart := { s.uart with rx := f.rx }, _buffer := f.buf }))
        f.index f.linesFound := by
  rw [readLoop, if_neg hi, hf]
  simp only [if_neg hl, if_neg ht]

/-- The framing loop on a longer schedule. -/
theorem readLoop_prolong (extra : List (List Char)) (lines : Nat) (t : Nat) :
    ∀ (s : NanoCellular) (i l : Nat) (o : Outcome), readLoop lines t s i l = .ok o →
      (s.uart.incoming = [] → o.st.uart.incoming = []) ∧
      (o.st.uart.incoming ≠ [] →
        readLoop lines t (prolong extra s) i l = .ok { o with st := prolong extra o.st }) := by
  induction t with
  | zero =>
    intro s i l o h
    rw [readLoop] at h
    refine ⟨fun h0 => by rw [terminate_incoming s i o h, h0], fun _ => ?_⟩
    rw [readLoop, terminate_prolong, h]
    rfl
  | succ t ih =>
    intro s i l o h
    by_cases hi : i > 254
    · rw [readLoop_full _ _ _ _ _ hi] at h
      refine ⟨fun h0 => by rw [terminate_incoming s i o h, h0], fun _ => ?_⟩
      rw [readLoop_full _ _ _ _ _ hi, terminate_prolong, h]
      rfl
    · cases hf : drain lines s.uart.rx i l s._buffer with
      | error e => rw [readLoop_fault _ _ _ _ _ e hi hf] at h; cases h
      | ok f =>
        have hf1 : drain lines (prolong extra s).uart.rx i l (prolong extra s)._buffer = .ok f := hf
        by_cases hl : f.linesFound ≥ lines
        · rw [readLoop_done _ _ _ _ _ f hi hf hl] at h
          refine ⟨fun h0 => by rw [terminate_incoming _ _ o h]; exact h0, fun _ => ?_⟩
          rw [readLoop_done _ _ _ _ _ f hi hf1 hl, prolong_frame, terminate_prolong, h]
          rfl
        · by_cases ht : t = 0
          · subst ht
            rw [readLoop_last _ _ _ _ f hi hf hl] at h
            cases h
            refine ⟨fun h0 => h0, fun _ => ?_⟩
            rw [readLoop_last _ _ _ _ f hi hf1 hl, prolong_frame]
          · rw [readLoop_next _ _ _ _ _ f hi hf hl ht] at h
            obtain ⟨ih1, ih2⟩ := ih _ _ _ o h
            refine ⟨fun h0 => ih1 (delay_exhausted 1 _ (by simpa [callWatchdog] using h0)),
              fun hne => ?_⟩
            have hd := fun h0 => hne (ih1 h0)
            rw [readLoop_next _ _ _ _ _ f hi hf1 hl ht, prolong_frame]
            have hc : ∀ x : NanoCellular, callWatchdog (prolong extra x) =
                prolong extra (callWatchdog x) := fun _ => rfl
            rw [hc, delay_prolong extra 1 _ hd]
            exact ih2 hne

theorem readReply_prolongs (timeout lines : Nat) : Prolongs (readReply timeout lines) := by
  intro s r a h
  unfold readReply readReplyFrom at h
  cases hr : readLoop lines timeout s 0 0 with
  | error e => rw [hr] at h; cases h
  | ok o =>
    rw [hr] at h
    simp only [Except.map] at h
    cases h
    refine ⟨(readLoop_prolong [] lines timeout s 0 0 o hr).1, fun hne extra => ?_⟩
    obtain ⟨_, h2⟩ := readLoop_prolong extra lines timeout s 0 0 o hr
    simp only [readReply, readReplyFrom, h2 hne, Except.map]

theorem sendAndWaitForReply_prolongs (command : List Char) (timeout lines : Nat) :
    Prolongs (sendAndWaitForReply command timeout lines) := by
  intro s r a h
  obtain ⟨h1, h2⟩ := readReply_prolongs timeout lines _ r a h
  exact ⟨fun h0 => h1 h0, fun hne extra => h2 hne extra⟩

theorem sendAndCheckReply_prolongs (command reply : List Char) (timeout : Nat) :
    Prolongs (sendAndCheckReply command reply timeout) := by
  intro s r a h
  unfold sendAndCheckReply at h
  cases hr : sendAndWaitForReply command timeout 1 s with
  | error e => rw [hr] at h; cases h
  | ok v =>
    obtain ⟨b, s1⟩ := v
    rw [hr] at h
    obtain ⟨h1, h2⟩ := sendAndWaitForReply_prolongs command timeout 1 s s1 b hr
    cases h
    refine ⟨h1, fun hne extra => ?_⟩
    simp only [sendAndCheckReply, h2 hne extra]
    rfl

theorem getSimPresent_prolongs : Prolongs getSimPresent := by
  intro s r a h
  unfold getSimPresent at h
  cases hr : sendAndWaitForReply "AT%XSIM?".toList 1000 1 s with
  | error e => rw [hr] at h; cases h
  | ok v =>
    obtain ⟨b, s1⟩ := v
    obtain ⟨h1, h2⟩ := sendAndWaitForReply_prolongs _ 1000 1 s s1 b hr
    rw [hr] at h
    cases b with
    | false =>
      cases h
      refine ⟨h1, fun hne extra => ?_⟩
      simp only [getSimPresent, h2 hne extra]
    | true =>
      simp only at h
      split at h
      · cases h
        refine ⟨h1, fun hne extra => ?_⟩
        rename_i p hp
        simp only [getSimPresent, h2 hne extra]
        have hb : (prolong extra s1)._buffer = s1._buffer := rfl
        rw [hb, hp]
        rfl
      · cases h
        refine ⟨h1, fun hne extra => ?_⟩
        rename_i hp
        simp only [getSimPresent, h2 hne extra]
        have hb : (prolong extra s1)._buffer = s1._buffer := rfl
        rw [hb, hp]
        rfl

theorem getStatus_prolong (extra : List (List Char)) (s : NanoCellular) :
    getStatus (prolong extra s) = getStatus s := rfl

/-- The wait for the status line on a longer schedule. -/
theorem waitStatus_prolong (extra : List (List Char)) (fuel : Nat) :
    ∀ s r : NanoCellular, waitStatus fuel s = .ok r →
      (s.uart.incoming = [] → r.uart.incoming = []) ∧
      (r.uart.incoming ≠ [] → waitStatus fuel (prolong extra s) = .ok (prolong extra r)) := by
  induction fuel with
  | zero =>
    intro s r h
    simp only [waitStatus] at h
    split at h
    · rename_i hs
      cases h
      exact ⟨fun h0 => h0, fun _ => by simp only [waitStatus, getStatus_prolong, hs, if_true]⟩
    · cases h
  | succ fuel ih =>
    intro s r h
    rw [waitStatus] at h
    split at h
    · rename_i hs
      cases h
      exact ⟨fun h0 => h0, fun _ => by rw [waitStatus, getStatus_prolong, if_pos hs]⟩
    · rename_i hs
      obtain ⟨ih1, ih2⟩ := ih _ r h
      refine ⟨fun h0 => ih1 (delay_exhausted 500 _ (by simpa [callWatchdog] using h0)),
        fun hne => ?_⟩
      have hd := fun h0 => hne (ih1 h0)
      have hc : callWatchdog (prolong extra s) = prolong extra (callWatchdog s) := rfl
      rw [waitStatus, getStatus_prolong, if_neg hs, hc, delay_prolong extra 500 _ hd]
      exact ih2 hne

theorem flush_prolong (extra : List (List Char)) (s : NanoCellular) :
    flush (prolong extra s) = prolong extra (flush s) := rfl

theorem callWatchdog_prolong (extra : List (List Char)) (s : NanoCellular) :
    callWatchdog (prolong extra s) = prolong extra (callWatchdog s) := rfl

theorem openCommunications_prolongs (k : Nat) : Prolongs (openCommunications k) := by
  induction k with
  | zero =>
    intro s r a h
    simp only [openCommunications] at h
    cases h
    exact ⟨fun h0 => h0, fun _ _ => rfl⟩
  | succ k ih =>
    intro s r a h
    rw [openCommunications] at h
    cases hr : sendAndCheckReply _AT _AT 1000 (flush s) with
    | error e => rw [hr] at h; cases h
    | ok v =>
      obtain ⟨b, s1⟩ := v
      obtain ⟨h1, h2⟩ := sendAndCheckReply_prolongs _AT _AT 1000 (flush s) s1 b hr
      rw [hr] at h
      cases b with
      | true =>
        cases h
        refine ⟨h1, fun hne extra => ?_⟩
        rw [openCommunications, flush_prolong, h2 hne extra]
      | false =>
        simp only at h
        obtain ⟨ih1, ih2⟩ := ih _ r a h
        refine ⟨fun h0 => ih1 (delay_exhausted 500 _ (by simpa [callWatchdog] using h1 h0)),
          fun hne extra => ?_⟩
        have hd := fun h0 => hne (ih1 h0)
        have hs1 : s1.uart.incoming ≠ [] := fun h0 =>
          hd (delay_exhausted 500 _ (by simpa [callWatchdog] using h0))
        rw [openCommunications, flush_prolong, h2 hs1 extra]
        simp only
        rw [callWatchdog_prolong, delay_prolong extra 500 _ hd]
        exact ih2 hne extra

theorem powerCycle_exhausted (s : NanoCellular) (h : s.uart.incoming = []) :
    (powerCycle s).uart.incoming = [] := by
  unfold powerCycle
  split
  · simpa [digitalWritePower] using delay_exhausted 300 (digitalWritePower false s)
      (by simpa [digitalWritePower] using h)
  · exact h

theorem powerCycle_prolong (extra : List (List Char)) (s : NanoCellular)
    (h : (powerCycle s).uart.incoming ≠ []) :
    powerCycle (prolong extra s) = prolong extra (powerCycle s) := by
  unfold powerCycle at h ⊢
  have hp : (prolong extra s)._powerPin = s._powerPin := rfl
  rw [hp]
  split
  · rename_i hpin
    rw [if_pos hpin] at h
    have hw : digitalWritePower false (prolong extra s) =
        prolong extra (digitalWritePower false s) := rfl
    rw [hw, delay_prolong extra 300 _ (by simpa [digitalWritePower] using h)]
    rfl
  · rfl

theorem statusFuel_prolong (extra : List (List Char)) (s : NanoCellular) :
    statusFuel (prolong extra s) = statusFuel s := rfl

/-- The method `setPower(true)` on a longer schedule. -/
theorem setPower_on_prolongs : Prolongs (setPower true) := by
  intro s r a h
  unfold setPower at h
  simp only [if_true] at h
  cases hw : waitStatus (statusFuel (powerCycle s)) (powerCycle s) with
  | error e => rw [hw] at h; cases h
  | ok s2 =>
    simp only [hw] at h
    cases ho : openCommunications 14 s2 with
    | error e => simp only [ho] at h; cases h
    | ok v =>
      obtain ⟨left, s3⟩ := v
      simp only [ho] at h
      obtain ⟨o1, o2⟩ := openCommunications_prolongs 14 s2 s3 left ho
      have hk : s.uart.incoming = [] → s3.uart.incoming = [] := fun h0 =>
        o1 ((waitStatus_prolong [] _ _ s2 hw).1 (powerCycle_exhausted s h0))
      have hr : r = s3 := by
        split at h <;> cases h <;> rfl
      subst hr
      refine ⟨hk, fun hne extra => ?_⟩
      have h2 : s2.uart.incoming ≠ [] := fun h0 => hne (o1 h0)
      have hpc : (powerCycle s).uart.incoming ≠ [] := fun h0 =>
        h2 ((waitStatus_prolong [] _ _ s2 hw).1 h0)
      have hw2 := (waitStatus_prolong extra _ _ s2 hw).2 h2
      unfold setPower
      simp only [if_true]
      rw [powerCycle_prolong extra s hpc, statusFuel_prolong, hw2]
      simp only [o2 hne extra]
      split at h <;> rename_i hc <;> simp only [hc, if_true, if_false] <;> cases h <;> rfl

/-- The method `setPower(false)` when the status line says the module is off. -/
theorem setPower_off_already (s : NanoCellular) (h : getStatus s = false) :
    setPower false s = .ok (true, s) := by
  simp [setPower, h]

theorem awaitMarker_prolongs (marker : List Char) (k : Nat) :
    Prolongs (awaitMarker marker k) := by
  induction k with
  | zero =>
    intro s r a h
    simp only [awaitMarker] at h
    cases h
    exact ⟨fun h0 => h0, fun _ _ => rfl⟩
  | succ k ih =>
    intro s r a h
    rw [awaitMarker] at h
    cases hr : readReply 500 1 s with
    | error e => rw [hr] at h; cases h
    | ok v =>
      obtain ⟨found, s1⟩ := v
      obtain ⟨h1, h2⟩ := readReply_prolongs 500 1 s s1 found hr
      rw [hr] at h
      simp only at h
      split at h
      · rename_i hc
        cases h
        refine ⟨h1, fun hne extra => ?_⟩
        rw [awaitMarker, h2 hne extra]
        have hb : (prolong extra r)._buffer = r._buffer := rfl
        simp only [hb, hc, if_true]
      · rename_i hc
        obtain ⟨ih1, ih2⟩ := ih _ r a h
        refine ⟨fun h0 => ih1 (delay_exhausted 500 _ (by simpa [callWatchdog] using h1 h0)),
          fun hne extra => ?_⟩
        have hd := fun h0 => hne (ih1 h0)
        have hs1 : s1.uart.incoming ≠ [] := fun h0 =>
          hd (delay_exhausted 500 _ (by simpa [callWatchdog] using h0))
        rw [awaitMarker, h2 hs1 extra]
        have hb : (prolong extra s1)._buffer = s1._buffer := rfl
        simp only [hb, hc, if_false]
        rw [callWatchdog_prolong, delay_prolong extra 500 _ hd]
        exact ih2 hne extra

/-- Silence appended to a schedule that holds only silence. -/
theorem quiet_prolong (n : Nat) (rest : List (List Char)) (s : NanoCellular)
    (hrx : s.uart.rx = []) (hq : ∀ chunk ∈ s.uart.incoming, chunk = []) :
    QuietFor (s.uart.incoming.length + n) (prolong (List.replicate n [] ++ rest) s) := by
  refine ⟨hrx, ?_⟩
  have e : (prolong (List.replicate n [] ++ rest) s).uart.incoming =
      (s.uart.incoming ++ List.replicate n []) ++ rest := by
    simp [prolong, Uart.prolong]
  rw [e, List.take_left' (by simp)]
  intro chunk hmem
  rcases List.mem_append.mp hmem with h | h
  · exact hq chunk h
  · exact (List.mem_replicate.mp h).2

theorem elapse_prolong (n w : Nat) (rest : List (List Char)) (s : NanoCellular) :
    elapse (s.uart.incoming.length + n) w (prolong (List.replicate n [] ++ rest) s) =
      resume (s.uart.incoming.length + n) w rest s := by
  have e : (s.uart.incoming ++ (List.replicate n [] ++ rest)).drop (s.uart.incoming.length + n)
      = rest := by
    rw [← List.append_assoc, List.drop_left' (by simp)]
  simp only [elapse, prolong, Uart.prolong, resume, e]

theorem readyBoot_runs :
    getStatus readyBoot = false ∧
    (setPower true readyBoot).map Prod.fst = .ok true ∧
    (getSimPresent readyOn).map Prod.fst = .ok true ∧
    (awaitMarker "READY".toList 10 readySim).map Prod.fst = .ok (9 + 1) ∧
    readyDone.uart.rx = [] ∧ readyDone.uart.incoming = [[]] := by
  decide!

theorem lateLast_runs :
    (awaitMarker "CONNECTED".toList 1 lateLast).map Prod.fst = .ok 1 ∧
    (getNetworkRegistration lateMarked).map Prod.fst
      = .ok NetworkRegistrationState.Registered ∧
    lateAnswered.uart.tx = "AT\r\nAT%XSIM?\r\nAT+CEREG?\r\n".toList := by
  decide!

theorem readyDone_incoming : readyDone.uart.incoming ≠ [] := by
  rw [readyBoot_runs.2.2.2.2.2]
  exact List.cons_ne_nil _ _

theorem readySim_incoming : readySim.uart.incoming ≠ [] := fun h0 =>
  readyDone_incoming
    ((awaitMarker_prolongs "READY".toList 10 readySim readyDone (9 + 1)
      (stateAfter_spec _ _ _ readyBoot_runs.2.2.2.1)).1 h0)

theorem readyOn_incoming : readyOn.uart.incoming ≠ [] := fun h0 =>
  readySim_incoming
    ((getSimPresent_prolongs readyOn readySim true
      (stateAfter_spec _ _ _ readyBoot_runs.2.2.1)).1 h0)

theorem lateConnected_off : getStatus lateConnected = false :=
  (getStatus_prolong (List.replicate 118880 [] ++ lateTail) readyBoot).trans readyBoot_runs.1

/-- The network wait of `begin` on `lateConnected`: 119 silent rounds, then the
round that reads `CONNECTED`. -/
theorem lateConnected_network_wait :
    awaitMarker "CONNECTED".toList 120 (prolong (List.replicate 118880 [] ++ lateTail) readyDone)
      = .ok (1, lateMarked) := by
  have hq := quiet_prolong 118880 lateTail readyDone readyBoot_runs.2.2.2.2.1
    (by rw [readyBoot_runs.2.2.2.2.2]; intro c hc; simpa using hc)
  have he := elapse_prolong 118880 (500 * 119) lateTail readyDone
  rw [readyBoot_runs.2.2.2.2.2] at hq he
  have h1 := awaitMarker_quiet "CONNECTED".toList 1 119
    (prolong (List.replicate 118880 [] ++ lateTail) readyDone) hq
  have h2 : awaitMarker "CONNECTED".toList 1 lateLast = .ok (1, lateMarked) :=
    stateAfter_spec _ _ _ lateLast_runs.1
  exact h1.trans ((congrArg (awaitMarker "CONNECTED".toList 1) he).trans h2)

/-- C20 on `lateConnected`: the module registers during the last step of the
budget, `begin` returns `false`, and `ATE0` and `AT+CMEE=2` are never sent. -/
theorem begin_registered_on_last_step_witness :
    (awaitRegistration 1 lateMarked = .ok (0, delay 500 (callWatchdog lateAnswered)) ∧
      begin lateConnected = .ok (false, delay 500 (callWatchdog lateAnswered)) ∧
      (delay 500 (callWatchdog lateAnswered)).uart.tx = lateAnswered.uart.tx) ∧
    lateAnswered.uart.tx = "AT\r\nAT%XSIM?\r\nAT+CEREG?\r\n".toList :=
  ⟨begin_registered_on_last_step lateConnected lateConnected
    (prolong (List.replicate 118880 [] ++ lateTail) readyOn)
    (prolong (List.replicate 118880 [] ++ lateTail) readySim)
    (prolong (List.replicate 118880 [] ++ lateTail) readyDone)
    lateMarked lateAnswered true true 9 NetworkRegistrationState.Registered
    (setPower_off_already lateConnected lateConnected_off)
    ((setPower_on_prolongs readyBoot readyOn true
      (stateAfter_spec _ _ _ readyBoot_runs.2.1)).2 readyOn_incoming _)
    ((getSimPresent_prolongs readyOn readySim true
      (stateAfter_spec _ _ _ readyBoot_runs.2.2.1)).2 readySim_incoming _)
    ((awaitMarker_prolongs "READY".toList 10 readySim readyDone (9 + 1)
      (stateAfter_spec _ _ _ readyBoot_runs.2.2.2.1)).2 readyDone_incoming _)
    lateConnected_network_wait
    (stateAfter_spec _ _ _ lateLast_runs.2.1)
    (Or.inl rfl),
  lateLast_runs.2.2⟩

/-! ## Leading line feeds -/

/-- While nothing is stored, the inner loop of `readReply` drops every line feed. -/
theorem drain_leading_line_feeds (lines : Nat) (k : Nat) (rest buf : List Char) :
    drain lines (List.replicate k LF ++ rest) 0 0 buf = drain lines rest 0 0 buf := by
  induction k with
  | zero => rfl
  | succ k ih =>
    have h1 : ¬ (LF = CR) := by decide
    rw [List.replicate_succ, List.cons_append, drain, if_neg h1, if_pos ⟨rfl, rfl⟩, ih]

/-- C21: the code drops every line feed that it meets while the buffer is
empty, not only the first. With any number `k` of line feeds in front of the
readable bytes `readReply` does what it does without them; on the input
`"\n\nA\n"` with 2 lines expected both leading line feeds are dropped, `A` and
one line feed are stored, one line is counted and the call times out, though
the same input completes a call that expects 1 line. -/
theorem readReply_drops_all_leading_line_feeds :
    (∀ (k t lines : Nat) (s : NanoCellular) (rest : List Char),
      readReply (t + 1) lines { s with uart := { s.uart with rx := List.replicate k LF ++ rest } } =
        readReply (t + 1) lines { s with uart := { s.uart with rx := rest } }) ∧
    (readReply 1000 2 twoLineFeeds).map (fun r => (r.1, cstr r.2._buffer, r.2.uart.rx)) =
      .ok (false, "A\n".toList, []) ∧
    (readReply 1000 1 twoLineFeeds).map (fun r => (r.1, cstr r.2._buffer, r.2.uart.rx)) =
      .ok (true, "A\n".toList, []) := by
  refine ⟨?_, by decide!, by decide!⟩
  intro k t lines s rest
  have h254 : ¬ (0 > 254) := by decide
  simp only [readReply, readReplyFrom, readLoop, drain_leading_line_feeds, if_neg h254]

/-! ## The length that `read` trusts -/

/-- C23: `read(buf, 2)` answered with the header `+QIRD: 5` and five bytes
returns 5 and stores the five bytes and a terminator in a caller's array of 8
bytes; with an array of 3 bytes (the 2 asked for and a terminator) it stores
outside the array. -/
theorem read_exceeds_size :
    (read (zeros 8) 2 fiveDeclared).map (fun r => (r.1, cstr r.2.1)) =
      .ok (5, "hello".toList) ∧
    (read (zeros 8) 2 fiveDeclared).map (fun r => r.2.2.uart.tx) =
      .ok "AT#XTCPRECV=1,2,1\r\n".toList ∧
    (read (zeros 3) 2 fiveDeclared).map (fun r => r.1) = .error Fault.outOfBounds := by
  decide!

/-! ## The result of `setPower(false)` -/

/-- C24: when `setPower(false)` returns, it returns `true` exactly if
`getStatus()` was false at entry, and then the object is unchanged; on every
other path that returns, the one through `+SHUTDOWN` included, the result is
`false`. -/
theorem setPower_off_result (s : NanoCellular) (r : Bool × NanoCellular)
    (h : setPower false s = .ok r) :
    (r.1 = true ↔ getStatus s = false) ∧ (getStatus s = false → r = (true, s)) := by
  cases hs : getStatus s with
  | false =>
    rw [setPower_off_already s hs] at h
    cases h
    simp
  | true =>
    have hr : r.1 = false := by
      unfold setPower at h
      simp only [hs, Bool.not_true, Bool.false_eq_true, if_false] at h
      repeat' split at h
      all_goals (cases h; try rfl)
    simp [hr]

/-- C24 on `shuttingDown`: the module confirms every command and sends
`+SHUTDOWN`, the power line is written low, and the result is `false`. -/
theorem setPower_off_result_witness :
    ((stateAfter (setPower false shuttingDown) shuttingDown).board.powerWrites = [false] ∧
      cstr (stateAfter (setPower false shuttingDown) shuttingDown)._buffer = "+SHUTDOWN\n".toList) ∧
    ((false = true ↔ getStatus shuttingDown = false) ∧
      (getStatus shuttingDown = false →
        (false, stateAfter (setPower false shuttingDown) shuttingDown) = (true, shuttingDown))) :=
  ⟨by decide!,
    setPower_off_result shuttingDown (false, stateAfter (setPower false shuttingDown) shuttingDown)
      (stateAfter_spec _ _ _ (by decide!))⟩

/-! ## A reply that arrives in the first millisecond -/

/-- With nothing readable, the first round of `readReply` only waits a
millisecond. -/
theorem readReply_first_round (t lines : Nat) (s : NanoCellular) (hrx : s.uart.rx = [])
    (hl : 1 ≤ lines) (ht : t ≠ 0) :
    readReply (t + 1) lines s = readReply t lines (delay 1 (callWatchdog s)) := by
  have hi : ¬ (0 > 254) := by decide
  have hf : drain lines s.uart.rx 0 0 s._buffer = .ok ⟨[], 0, 0, s._buffer⟩ := by
    rw [hrx]; rfl
  have hlines : ¬ ((⟨[], 0, 0, s._buffer⟩ : Frame).linesFound ≥ lines) := by
    simp only [ge_iff_le, Nat.le_zero_eq]; omega
  have hs : ({ s with uart := { s.uart with rx := [] }, _buffer := s._buffer } : NanoCellular)
      = s := by
    cases s
    rename_i u _ _ _ _ _ _ _ _ _ _
    cases u
    simp_all
  have h := readLoop_next lines t s 0 0 ⟨[], 0, 0, s._buffer⟩ hi hf hlines ht
  simp only [hs] at h
  simp only [readReply, readReplyFrom, h]

theorem cstr_blit_terminated (buf X : List Char) (h : ∀ c ∈ X, c ≠ NUL) :
    cstr (blit buf 0 (X ++ [NUL])) = X := by
  have e : blit buf 0 (X ++ [NUL]) = X ++ NUL :: buf.drop (0 + (X ++ [NUL]).length) := by
    simp [blit]
  rw [e]
  unfold cstr cstrAt
  rw [List.drop_zero, List.takeWhile_append_of_pos (by
    intro c hc
    simpa using h c hc)]
  simp

/-- C22, amended: when the reply to `AT%XVBAT` arrives in the first millisecond
as CR LF, the line `%XVBAT: 5059`, an empty line and the line `OK` (three
counted line feeds), the transaction succeeds and `getVoltage` returns
5059/1000; what was scheduled after the reply is still to arrive. -/
theorem getVoltage_framed_reply (s : NanoCellular) (later : List (List Char))
    (hwf : WellFormed s)
    (hin : s.uart.incoming = "\r\n%XVBAT: 5059\r\n\r\nOK\r\n".toList :: later) :
    ∃ s2, getVoltage s = .ok (((5059 : ℕ) : ℚ) / 1000, s2) ∧ s2.uart.incoming = later := by
  obtain ⟨s3, hs3⟩ : ∃ s3, s3 = delay 1 (callWatchdog
      { flush s with uart := (flush s).uart.println "AT%XVBAT".toList }) := ⟨_, rfl⟩
  have h1 : sendAndWaitForReply "AT%XVBAT".toList 1000 3 s = readReply 999 3 s3 := by
    rw [hs3]
    unfold sendAndWaitForReply
    exact readReply_first_round 999 3 _ rfl (by decide) (by decide)
  have hrx : s3.uart.rx = "\r\n%XVBAT: 5059\r\n\r\nOK\r".toList ++ LF :: [] := by
    rw [hs3]
    simp only [delay, callWatchdog, flush, Uart.println, Uart.wait, Uart.tick, hin]
    decide
  have hinc : s3.uart.incoming = later := by
    rw [hs3]
    simp only [delay, callWatchdog, flush, Uart.println, Uart.wait, Uart.tick, hin]
  have hb3 : s3._buffer = s._buffer := by rw [hs3]; rfl
  have hwf1 : WellFormed s3 := by
    unfold WellFormed
    rw [hb3]
    exact hwf
  have h2 := readReply_line 999 3 s3 "\r\n%XVBAT: 5059\r\n\r\nOK\r".toList [] (by decide) hwf1 hrx
    (by decide) (by decide) (by decide)
  have hst : stored "\r\n%XVBAT: 5059\r\n\r\nOK\r".toList ++ [LF, NUL] =
      "%XVBAT: 5059\n\nOK\n".toList ++ [NUL] := by decide
  rw [hst] at h2
  have hbuf := cstr_blit_terminated s3._buffer "%XVBAT: 5059\n\nOK\n".toList (by decide)
  obtain ⟨buf1, hp⟩ := parseVoltage_second_token
    (blit s3._buffer 0 ("%XVBAT: 5059\n\nOK\n".toList ++ [NUL]))
    "%XVBAT:".toList "5059".toList "\n\nOK\n".toList 5059 (by rw [hbuf]; decide)
    (by decide) (by decide) (by decide) (by decide) (by decide) (by decide) (by decide)
  refine ⟨{ s3 with
            uart := { s3.uart with rx := [] },
            _buffer := buf1 }, ?_, hinc⟩
  unfold getVoltage
  rw [h1, h2]
  simp only [hp]

/-- C22, amended, on `xvbatFramed`. -/
theorem getVoltage_framed_reply_witness :
    ∃ s2, getVoltage xvbatFramed = .ok (((5059 : ℕ) : ℚ) / 1000, s2) ∧ s2.uart.incoming = [] :=
  getVoltage_framed_reply xvbatFramed [] (sample_wellFormed _ _ _ (by decide)) rfl

/-- C22 fails on `xvbatTwoLines`, where the two documented lines arrive, each
ended by CR LF, and nothing else: the transaction waits for a third line feed,
times out, and `getVoltage` returns 0. -/
theorem getVoltage_two_lines_time_out :
    (sendAndWaitForReply "AT%XVBAT".toList 1000 3 xvbatTwoLines).map
        (fun r => (r.1, cstr r.2._buffer)) = .ok (false, "%XVBAT: 5059\nOK\n".toList) ∧
    (getVoltage xvbatTwoLines).map Prod.fst = .ok 0 := by
  decide!

end Nano
